import Mathlib

/-!
Verification of the kinematic reference-frame tree implemented in
`dart/dynamics/Frame.cpp`.

The C++ class `Frame` maintains, per frame: a parent pointer, child-entity and
child-frame sets, three dirty flags, and cached world transform / spatial
velocity / spatial acceleration.  We embed that object graph as a state
`FrameState` indexed by natural numbers (one index per frame), and each C++
member function as a (fuel-indexed, when recursive) state-passing function.
Exact rational arithmetic stands in for IEEE doubles: the properties under
study are algebraic identities of the composition formulas, which `double`
satisfies only up to rounding but ℚ satisfies exactly.
-/

namespace DartFrame

abbrev Vec3 := Fin 3 → ℚ

abbrev Mat3 := Fin 3 → Fin 3 → ℚ

/-- Cross product of 3-vectors, as Eigen's `Vector3d::cross`. -/
def cross (a b : Vec3) : Vec3 :=
  ![a 1 * b 2 - a 2 * b 1, a 2 * b 0 - a 0 * b 2, a 0 * b 1 - a 1 * b 0]

/-- 3×3 matrix product, written out over `Fin 3`. -/
def matMul (A B : Mat3) : Mat3 :=
  fun i j => A i 0 * B 0 j + A i 1 * B 1 j + A i 2 * B 2 j

/-- Matrix–vector product. -/
def mulVec (A : Mat3) (v : Vec3) : Vec3 :=
  fun i => A i 0 * v 0 + A i 1 * v 1 + A i 2 * v 2

/-- The 3×3 identity matrix. -/
def matId : Mat3 := fun i j => if i = j then 1 else 0

/-- Matrix transpose. -/
def transposeM (A : Mat3) : Mat3 := fun i j => A j i

/-- A rigid transform (Eigen `Isometry3d`): rotation block `R`, translation `t`. -/
structure Iso3 where
  R : Mat3
  t : Vec3
deriving DecidableEq

/-- The identity transform. -/
def Iso3.id : Iso3 := ⟨matId, fun _ => 0⟩

/-- Composition `T1 * T2` of isometries (Eigen `operator*`):
rotation `R1·R2`, translation `R1·t2 + t1`. -/
def Iso3.comp (T1 T2 : Iso3) : Iso3 :=
  ⟨matMul T1.R T2.R, mulVec T1.R T2.t + T1.t⟩

/-- Inverse of an isometry as Eigen computes it in `Isometry` mode:
rotation `Rᵀ`, translation `-Rᵀ·t`.  This is a true inverse only when `R`
is orthogonal. -/
def Iso3.inv (T : Iso3) : Iso3 :=
  ⟨transposeM T.R, -(mulVec (transposeM T.R) T.t)⟩

/-- Action of a transform on a point. -/
def Iso3.act (T : Iso3) (p : Vec3) : Vec3 := mulVec T.R p + T.t

/-- A spatial motion vector (`Eigen::Vector6d`): angular head, linear tail. -/
structure Vec6 where
  ang : Vec3
  lin : Vec3
deriving DecidableEq

/-- The zero spatial vector. -/
def Vec6.zero : Vec6 := ⟨fun _ => 0, fun _ => 0⟩

/-- Componentwise sum of spatial vectors. -/
def Vec6.add (a b : Vec6) : Vec6 := ⟨a.ang + b.ang, a.lin + b.lin⟩

/-- Componentwise difference of spatial vectors. -/
def Vec6.sub (a b : Vec6) : Vec6 := ⟨a.ang - b.ang, a.lin - b.lin⟩

/-- Modelled from the spec: the adjoint transport `math::AdT` used by
`Frame.cpp` (its definition lives in `math/Geometry.h`, which is not under
`src/`).  Per the spec's glossary it is "the linear operator re-expressing a
spatial velocity/acceleration measured relative to one frame as the
equivalent quantity relative to another frame related by a known fixed
pose"; this is the standard SE(3) adjoint
`Ad_T (w, v) = (R w, t × (R w) + R v)`. -/
def AdT (T : Iso3) (V : Vec6) : Vec6 :=
  ⟨mulVec T.R V.ang, mulVec T.R V.lin + cross T.t (mulVec T.R V.ang)⟩

/-- Modelled from the spec: `math::AdInvT`, the adjoint of the inverse
transform, transporting a parent-frame quantity into the child frame:
`Ad_{T⁻¹} (w, v) = (Rᵀ w, Rᵀ (v - t × w))`. -/
def AdInvT (T : Iso3) (V : Vec6) : Vec6 :=
  ⟨mulVec (transposeM T.R) V.ang,
   mulVec (transposeM T.R) (V.lin - cross T.t V.ang)⟩

/-- Modelled from the spec: `math::AdR`, the rotational adjoint used to
re-express a spatial vector in another coordinate frame without moving its
reference point: both blocks are rotated by `R`. -/
def AdR (T : Iso3) (V : Vec6) : Vec6 :=
  ⟨mulVec T.R V.ang, mulVec T.R V.lin⟩

/-- Modelled from the spec: `math::ad`, the Lie bracket (spatial cross
product) on se(3): `ad (w1,v1) (w2,v2) = (w1 × w2, w1 × v2 + v1 × w2)`. -/
def ad (V W : Vec6) : Vec6 :=
  ⟨cross V.ang W.ang, cross V.ang W.lin + cross V.lin W.ang⟩

/-- The mutable object graph of `Frame` instances, indexed by `Nat`.
Fields mirror the C++ members: `parent` is `Entity::mParentFrame` (`none`
models a NULL pointer), `quiet` is `Entity::mAmQuiet` (the suppression
flag), `needT/needV/needA` are the three dirty flags, `cachedT/cachedV/
cachedA` are `mWorldTransform`/`mVelocity`/`mAcceleration`, and
`relT/relV/primAcc/partAcc` are the four subclass-supplied primitives
(`getRelativeTransform`, `getRelativeSpatialVelocity`,
`getPrimaryRelativeAcceleration`, `getPartialAcceleration`), immutable
here because the core never writes them. -/
structure FrameState where
  parent : Nat → Option Nat
  isWorld : Nat → Bool
  quiet : Nat → Bool
  childEntities : Nat → List Nat
  childFrames : Nat → List Nat
  needT : Nat → Bool
  needV : Nat → Bool
  needA : Nat → Bool
  cachedT : Nat → Iso3
  cachedV : Nat → Vec6
  cachedA : Nat → Vec6
  relT : Nat → Iso3
  relV : Nat → Vec6
  primAcc : Nat → Vec6
  partAcc : Nat → Vec6
  vizShapes : Nat → List Nat

/-- `Frame::getWorldTransform` (Frame.cpp:99-111), fuel-indexed because the
C++ recursion climbs the parent chain.  Returns the computed transform, the
updated state, and the log of frames whose `getRelativeTransform` primitive
was invoked (in invocation order) — the "instrumented counting stub" of the
spec.  A `none` parent (NULL pointer dereference in C++) and fuel
exhaustion return the cache unchanged; all claims supply enough fuel and a
well-parented tree. -/
def getWorldTransform : Nat → FrameState → Nat → Iso3 × FrameState × List Nat
  | 0, s, i => (s.cachedT i, s, [])
  | fuel+1, s, i =>
    if s.isWorld i then (s.cachedT i, s, [])
    else if s.needT i then
      match s.parent i with
      | none => (s.cachedT i, s, [])
      | some p =>
        let r := getWorldTransform fuel s p
        let newT := Iso3.comp r.1 (s.relT i)
        let s2 : FrameState :=
          { r.2.1 with
            cachedT := Function.update r.2.1.cachedT i newT,
            needT := Function.update r.2.1.needT i false }
        (newT, s2, r.2.2 ++ [i])
    else (s.cachedT i, s, [])

/- ### Algebraic facts about the transform group -/

theorem matMul_id_left (A : Mat3) : matMul matId A = A := by
  funext i j
  fin_cases i <;> fin_cases j <;> simp [matMul, matId, Fin.ext_iff]

theorem mulVec_id (v : Vec3) : mulVec matId v = v := by
  funext i
  fin_cases i <;> simp [mulVec, matId, Fin.ext_iff]

theorem mulVec_zero_right (A : Mat3) : mulVec A (fun _ => 0) = fun _ => 0 := by
  funext i
  simp [mulVec]

theorem mulVec_matMul (A B : Mat3) (v : Vec3) :
    mulVec (matMul A B) v = mulVec A (mulVec B v) := by
  funext i
  simp only [mulVec, matMul]
  ring

theorem mulVec_add (A : Mat3) (u v : Vec3) :
    mulVec A (u + v) = mulVec A u + mulVec A v := by
  funext i
  simp only [mulVec, Pi.add_apply]
  ring

theorem matMul_assoc (A B C : Mat3) :
    matMul (matMul A B) C = matMul A (matMul B C) := by
  funext i j
  simp only [matMul]
  ring

theorem Iso3.id_comp (T : Iso3) : Iso3.comp Iso3.id T = T := by
  cases T with
  | mk R t =>
    simp [Iso3.comp, Iso3.id, matMul_id_left, mulVec_id,
      show (fun _ : Fin 3 => (0:ℚ)) = 0 from rfl]

theorem Iso3.comp_assoc (T1 T2 T3 : Iso3) :
    Iso3.comp (Iso3.comp T1 T2) T3 = Iso3.comp T1 (Iso3.comp T2 T3) := by
  simp only [Iso3.comp, matMul_assoc, mulVec_matMul, mulVec_add]
  refine congrArg (Iso3.mk _) ?_
  funext i
  simp only [Pi.add_apply]
  ring

theorem Iso3.act_comp (T1 T2 : Iso3) (p : Vec3) :
    (Iso3.comp T1 T2).act p = T1.act (T2.act p) := by
  simp only [Iso3.act, Iso3.comp, mulVec_matMul, mulVec_add]
  funext i
  simp only [Pi.add_apply]
  ring

theorem getWT_world (f : Nat) (s : FrameState) (i : Nat) (h : s.isWorld i = true) :
    getWorldTransform (f+1) s i = (s.cachedT i, s, []) := by
  simp [getWorldTransform, h]

theorem getWT_clean (f : Nat) (s : FrameState) (i : Nat) (h : s.needT i = false) :
    getWorldTransform (f+1) s i = (s.cachedT i, s, []) := by
  by_cases hw : s.isWorld i = true <;> simp [getWorldTransform, h, hw]

theorem getWT_dirty_val (f : Nat) (s : FrameState) (i p : Nat)
    (hw : s.isWorld i = false) (ht : s.needT i = true) (hp : s.parent i = some p) :
    (getWorldTransform (f+1) s i).1
      = Iso3.comp (getWorldTransform f s p).1 (s.relT i) := by
  simp [getWorldTransform, hw, ht, hp]

theorem getWT_orphan (f : Nat) (s : FrameState) (i : Nat)
    (hw : s.isWorld i = false) (ht : s.needT i = true) (hp : s.parent i = none) :
    getWorldTransform (f+1) s i = (s.cachedT i, s, []) := by
  simp [getWorldTransform, hw, ht, hp]

theorem getWT_dirty_eq (f : Nat) (s : FrameState) (i p : Nat)
    (hw : s.isWorld i = false) (ht : s.needT i = true) (hp : s.parent i = some p) :
    getWorldTransform (f+1) s i
      = (Iso3.comp (getWorldTransform f s p).1 (s.relT i),
         { (getWorldTransform f s p).2.1 with
           cachedT := Function.update (getWorldTransform f s p).2.1.cachedT i
             (Iso3.comp (getWorldTransform f s p).1 (s.relT i)),
           needT := Function.update (getWorldTransform f s p).2.1.needT i false },
         (getWorldTransform f s p).2.2 ++ [i]) := by
  simp [getWorldTransform, hw, ht, hp]

/-- The parent chain of frame `i` (inclusive), as far as `fuel` steps, cut
off at the World frame or a missing parent.  `getWorldTransform` only ever
invokes `getRelativeTransform` of frames on this chain. -/
def ancestors : Nat → FrameState → Nat → List Nat
  | 0, _, _ => []
  | f+1, s, i =>
    i :: (if s.isWorld i then [] else
          match s.parent i with
          | none => []
          | some p => ancestors f s p)

theorem getWT_log_sub :
    ∀ (f : Nat) (s : FrameState) (i : Nat),
      ∀ x ∈ (getWorldTransform f s i).2.2, x ∈ ancestors f s i := by
  intro f
  induction f with
  | zero => intro s i x hx; simp [getWorldTransform] at hx
  | succ f ih =>
    intro s i x hx
    by_cases hw : s.isWorld i = true
    · rw [getWT_world f s i hw] at hx
      simp at hx
    · have hw' : s.isWorld i = false := by simpa using hw
      by_cases ht : s.needT i = true
      · cases hp : s.parent i with
        | none =>
          rw [getWT_orphan f s i hw' ht hp] at hx
          simp at hx
        | some p =>
          rw [getWT_dirty_eq f s i p hw' ht hp] at hx
          simp only [List.mem_append, List.mem_singleton] at hx
          have hgoal : ancestors (f+1) s i = i :: ancestors f s p := by
            simp [ancestors, hw', hp]
          rw [hgoal]
          rcases hx with hx | hx
          · exact List.mem_cons_of_mem _ (ih s p x hx)
          · rw [hx]; exact List.mem_cons_self _ _
      · have ht' : s.needT i = false := by simpa using ht
        rw [getWT_clean f s i ht'] at hx
        simp at hx

/-- A concrete four-frame chain 0→1→2→3(World) with non-commuting relative
transforms and all flags dirty, used by several witnesses. -/
def chainState : FrameState where
  parent := fun i => if i = 0 then some 1 else if i = 1 then some 2
    else if i = 2 then some 3 else if i = 3 then some 3 else none
  isWorld := fun i => i = 3
  quiet := fun i => i = 3
  childEntities := fun i => if i = 1 then [0] else if i = 2 then [1]
    else if i = 3 then [2] else []
  childFrames := fun i => if i = 1 then [0] else if i = 2 then [1]
    else if i = 3 then [2] else []
  needT := fun _ => true
  needV := fun _ => true
  needA := fun _ => true
  cachedT := fun _ => Iso3.id
  cachedV := fun _ => Vec6.zero
  cachedA := fun _ => Vec6.zero
  relT := fun i =>
    if i = 0 then ⟨![![0,1,0],![1,0,0],![0,0,1]], ![1,0,0]⟩
    else if i = 1 then ⟨matId, ![0,2,0]⟩
    else if i = 2 then ⟨![![1,0,0],![0,0,1],![0,1,0]], ![0,0,3]⟩
    else Iso3.id
  relV := fun _ => Vec6.zero
  primAcc := fun _ => Vec6.zero
  partAcc := fun _ => Vec6.zero
  vizShapes := fun _ => []

/-- C2: `getWorldTransform` caching protocol for a non-world frame `i` with
parent `p`.  (1) With the dirty flag set, the call recomputes the cache as
the parent's world transform composed with `getRelativeTransform`, stores
it, and clears the flag.  (2) With the flag clear, the call returns the
cached value with no state change and no `getRelativeTransform` invocation
(empty invocation log).  (3) Hence two consecutive calls with no intervening
notify invoke frame `i`'s `getRelativeTransform` exactly once, given that
`i` is not its own ancestor (acyclic chain). -/
theorem claim_C2_world_transform_caching
    (f : Nat) (s : FrameState) (i p : Nat)
    (hw : s.isWorld i = false) (hp : s.parent i = some p) :
    (s.needT i = true →
       (getWorldTransform (f+1) s i).1
           = Iso3.comp (getWorldTransform f s p).1 (s.relT i)
       ∧ ((getWorldTransform (f+1) s i).2.1).needT i = false
       ∧ ((getWorldTransform (f+1) s i).2.1).cachedT i = (getWorldTransform (f+1) s i).1)
    ∧ (s.needT i = false →
       getWorldTransform (f+1) s i = (s.cachedT i, s, []))
    ∧ (s.needT i = true → i ∉ ancestors f s p →
       List.count i ((getWorldTransform (f+1) s i).2.2
         ++ (getWorldTransform (f+1) ((getWorldTransform (f+1) s i).2.1) i).2.2) = 1) := by
  refine ⟨?_, ?_, ?_⟩
  · intro ht
    rw [getWT_dirty_eq f s i p hw ht hp]
    exact ⟨rfl, Function.update_same .., Function.update_same ..⟩
  · intro ht
    exact getWT_clean f s i ht
  · intro ht hanc
    have h1 := getWT_dirty_eq f s i p hw ht hp
    have hclean : ((getWorldTransform (f+1) s i).2.1).needT i = false := by
      rw [h1]; exact Function.update_same ..
    have h2 := getWT_clean f ((getWorldTransform (f+1) s i).2.1) i hclean
    rw [h2]
    have hlog : (getWorldTransform (f+1) s i).2.2
        = (getWorldTransform f s p).2.2 ++ [i] := by rw [h1]
    rw [hlog]
    have hzero : List.count i (getWorldTransform f s p).2.2 = 0 := by
      rw [List.count_eq_zero]
      intro hmem
      exact hanc (getWT_log_sub f s p i hmem)
    simp [List.count_append, hzero]

theorem claim_C2_witness :
    chainState.isWorld 0 = false ∧ chainState.parent 0 = some 1 ∧
    chainState.needT 0 = true ∧ (0 : Nat) ∉ ancestors 3 chainState 1 ∧
    List.count 0 ((getWorldTransform 4 chainState 0).2.2
      ++ (getWorldTransform 4 ((getWorldTransform 4 chainState 0).2.1) 0).2.2) = 1 :=
  ⟨rfl, rfl, rfl, by decide,
   (claim_C2_world_transform_caching 3 chainState 0 1 rfl rfl).2.2 rfl (by decide)⟩

/-- C1: for a chain A→B→C→World with fixed relative transforms and all
three transform caches marked dirty, `A.getWorldTransform()` computes
`relT(C) * relT(B) * relT(A)` as an isometry product — which, acting on a
point, applies `relT(A)` first, then `relT(B)`, then `relT(C)`.  This is
the spec's `relT(A) ∘ relT(B) ∘ relT(C)` read in diagrammatic order (the
order the chain A→B→C is listed): the first-listed transform is the first
applied. -/
theorem claim_C1_chain_world_transform
    (f : Nat) (s : FrameState) (a b c w : Nat)
    (hA : s.isWorld a = false) (hB : s.isWorld b = false)
    (hC : s.isWorld c = false) (hW : s.isWorld w = true)
    (hpa : s.parent a = some b) (hpb : s.parent b = some c)
    (hpc : s.parent c = some w)
    (hta : s.needT a = true) (htb : s.needT b = true) (htc : s.needT c = true)
    (hwT : s.cachedT w = Iso3.id) :
    (getWorldTransform (f+4) s a).1
      = Iso3.comp (s.relT c) (Iso3.comp (s.relT b) (s.relT a))
    ∧ ∀ p : Vec3,
        ((getWorldTransform (f+4) s a).1).act p
          = (s.relT c).act ((s.relT b).act ((s.relT a).act p)) := by
  have hval : (getWorldTransform (f+4) s a).1
      = Iso3.comp (s.relT c) (Iso3.comp (s.relT b) (s.relT a)) := by
    rw [getWT_dirty_val (f+3) s a b hA hta hpa,
        getWT_dirty_val (f+2) s b c hB htb hpb,
        getWT_dirty_val (f+1) s c w hC htc hpc,
        getWT_world f s w hW, hwT, Iso3.id_comp, Iso3.comp_assoc]
  refine ⟨hval, ?_⟩
  intro p
  rw [hval, Iso3.act_comp, Iso3.act_comp]

theorem claim_C1_witness :
    chainState.isWorld 0 = false ∧ chainState.needT 0 = true ∧
    ((getWorldTransform 4 chainState 0).1
        = Iso3.comp (chainState.relT 2) (Iso3.comp (chainState.relT 1) (chainState.relT 0))
      ∧ ∀ p : Vec3,
          ((getWorldTransform 4 chainState 0).1).act p
            = (chainState.relT 2).act ((chainState.relT 1).act ((chainState.relT 0).act p))) :=
  ⟨rfl, rfl,
   claim_C1_chain_world_transform 0 chainState 0 1 2 3
     rfl rfl rfl rfl rfl rfl rfl rfl rfl rfl rfl⟩

/- ### Invalidation propagation (Frame.cpp:336-379) -/

/-- `Frame::notifyAccelerationUpdate` (Frame.cpp:368-379): if the flag is
already set, return; otherwise set it and recurse into every child entity.
Fuel bounds the recursion depth through child sets. -/
def notifyAccelerationUpdate : Nat → FrameState → Nat → FrameState
  | 0, s, _ => s
  | fuel+1, s, i =>
    if s.needA i then s
    else
      let s1 : FrameState := { s with needA := Function.update s.needA i true }
      (s1.childEntities i).foldl (fun t e => notifyAccelerationUpdate fuel t e) s1

/-- `Frame::notifyVelocityUpdate` (Frame.cpp:352-365): first unconditionally
calls `notifyAccelerationUpdate`, then applies the idempotent
short-circuit pattern on the velocity flag. -/
def notifyVelocityUpdate : Nat → FrameState → Nat → FrameState
  | 0, s, _ => s
  | fuel+1, s, i =>
    let s0 := notifyAccelerationUpdate (fuel+1) s i
    if s0.needV i then s0
    else
      let s1 : FrameState := { s0 with needV := Function.update s0.needV i true }
      (s1.childEntities i).foldl (fun t e => notifyVelocityUpdate fuel t e) s1

/-- `Frame::notifyTransformUpdate` (Frame.cpp:336-349): first unconditionally
calls `notifyVelocityUpdate`, then the short-circuit pattern on the
transform flag. -/
def notifyTransformUpdate : Nat → FrameState → Nat → FrameState
  | 0, s, _ => s
  | fuel+1, s, i =>
    let s0 := notifyVelocityUpdate (fuel+1) s i
    if s0.needT i then s0
    else
      let s1 : FrameState := { s0 with needT := Function.update s0.needT i true }
      (s1.childEntities i).foldl (fun t e => notifyTransformUpdate fuel t e) s1

theorem foldl_preserve {α : Type} (P : FrameState → Prop)
    {g : FrameState → α → FrameState} :
    ∀ (l : List α), (∀ t e, e ∈ l → P t → P (g t e)) →
      ∀ t, P t → P (l.foldl g t) := by
  intro l
  induction l with
  | nil => intro _ t ht; exact ht
  | cons e rest ih =>
    intro h t ht
    exact ih (fun t' e' he' ht' => h t' e' (List.mem_cons_of_mem _ he') ht')
      (g t e) (h t e (List.mem_cons_self _ _) ht)

/-- What one `notifyAccelerationUpdate` cascade can do to the state: it
only sets acceleration dirty flags; every other field is untouched. -/
structure AccStep (s s' : FrameState) : Prop where
  parent : s'.parent = s.parent
  isWorld : s'.isWorld = s.isWorld
  quiet : s'.quiet = s.quiet
  childEntities : s'.childEntities = s.childEntities
  childFrames : s'.childFrames = s.childFrames
  cachedT : s'.cachedT = s.cachedT
  cachedV : s'.cachedV = s.cachedV
  cachedA : s'.cachedA = s.cachedA
  needT : s'.needT = s.needT
  needV : s'.needV = s.needV
  needA_mono : ∀ j, s.needA j = true → s'.needA j = true
  vizShapes : s'.vizShapes = s.vizShapes

theorem accStep_refl (s : FrameState) : AccStep s s :=
  ⟨rfl, rfl, rfl, rfl, rfl, rfl, rfl, rfl, rfl, rfl, fun _ h => h, rfl⟩

theorem accStep_trans {s1 s2 s3 : FrameState}
    (a : AccStep s1 s2) (b : AccStep s2 s3) : AccStep s1 s3 :=
  ⟨b.parent.trans a.parent, b.isWorld.trans a.isWorld, b.quiet.trans a.quiet,
   b.childEntities.trans a.childEntities, b.childFrames.trans a.childFrames,
   b.cachedT.trans a.cachedT, b.cachedV.trans a.cachedV, b.cachedA.trans a.cachedA,
   b.needT.trans a.needT, b.needV.trans a.needV,
   fun j h => b.needA_mono j (a.needA_mono j h), b.vizShapes.trans a.vizShapes⟩

theorem notifyAcc_dirty (f : Nat) (s : FrameState) (i : Nat)
    (h : s.needA i = true) : notifyAccelerationUpdate f s i = s := by
  cases f with
  | zero => rfl
  | succ f => simp [notifyAccelerationUpdate, h]

theorem notifyAcc_clean (f : Nat) (s : FrameState) (i : Nat)
    (h : s.needA i = false) :
    notifyAccelerationUpdate (f+1) s i
      = (({ s with needA := Function.update s.needA i true } : FrameState).childEntities i).foldl
          (fun t e => notifyAccelerationUpdate f t e)
          { s with needA := Function.update s.needA i true } := by
  simp [notifyAccelerationUpdate, h]

theorem notifyAcc_step :
    ∀ (f : Nat) (s : FrameState) (i : Nat),
      AccStep s (notifyAccelerationUpdate f s i) := by
  intro f
  induction f with
  | zero => intro s i; exact accStep_refl s
  | succ f ih =>
    intro s i
    by_cases h : s.needA i = true
    · rw [notifyAcc_dirty (f+1) s i h]; exact accStep_refl s
    · have h' : s.needA i = false := by simpa using h
      rw [notifyAcc_clean f s i h']
      have base : AccStep s { s with needA := Function.update s.needA i true } := by
        refine ⟨rfl, rfl, rfl, rfl, rfl, rfl, rfl, rfl, rfl, rfl, ?_, rfl⟩
        intro j hj
        show Function.update s.needA i true j = true
        rw [Function.update_apply]
        by_cases hji : j = i
        · simp [hji]
        · simp [hji, hj]
      exact foldl_preserve (AccStep s) _ (fun t e _ ht => accStep_trans ht (ih t e)) _ base

theorem notifyAcc_needA (f : Nat) (s : FrameState) (i : Nat) :
    (notifyAccelerationUpdate (f+1) s i).needA i = true := by
  by_cases h : s.needA i = true
  · rw [notifyAcc_dirty (f+1) s i h]; exact h
  · have h' : s.needA i = false := by simpa using h
    rw [notifyAcc_clean f s i h']
    refine foldl_preserve (fun t => t.needA i = true) _ (fun t e _ ht => ?_) _ ?_
    · exact (notifyAcc_step f t e).needA_mono i ht
    · show Function.update s.needA i true i = true
      simp [Function.update_same]

/-- What one `notifyVelocityUpdate` cascade can do: it only sets velocity
and acceleration dirty flags. -/
structure VelStep (s s' : FrameState) : Prop where
  parent : s'.parent = s.parent
  isWorld : s'.isWorld = s.isWorld
  quiet : s'.quiet = s.quiet
  childEntities : s'.childEntities = s.childEntities
  childFrames : s'.childFrames = s.childFrames
  cachedT : s'.cachedT = s.cachedT
  cachedV : s'.cachedV = s.cachedV
  cachedA : s'.cachedA = s.cachedA
  needT : s'.needT = s.needT
  needV_mono : ∀ j, s.needV j = true → s'.needV j = true
  needA_mono : ∀ j, s.needA j = true → s'.needA j = true
  vizShapes : s'.vizShapes = s.vizShapes

theorem velStep_refl (s : FrameState) : VelStep s s :=
  ⟨rfl, rfl, rfl, rfl, rfl, rfl, rfl, rfl, rfl, fun _ h => h, fun _ h => h, rfl⟩

theorem velStep_trans {s1 s2 s3 : FrameState}
    (a : VelStep s1 s2) (b : VelStep s2 s3) : VelStep s1 s3 :=
  ⟨b.parent.trans a.parent, b.isWorld.trans a.isWorld, b.quiet.trans a.quiet,
   b.childEntities.trans a.childEntities, b.childFrames.trans a.childFrames,
   b.cachedT.trans a.cachedT, b.cachedV.trans a.cachedV, b.cachedA.trans a.cachedA,
   b.needT.trans a.needT, fun j h => b.needV_mono j (a.needV_mono j h),
   fun j h => b.needA_mono j (a.needA_mono j h), b.vizShapes.trans a.vizShapes⟩

theorem velStep_of_acc {s s' : FrameState} (a : AccStep s s') : VelStep s s' :=
  ⟨a.parent, a.isWorld, a.quiet, a.childEntities, a.childFrames,
   a.cachedT, a.cachedV, a.cachedA, a.needT,
   fun j h => by rw [a.needV]; exact h, a.needA_mono, a.vizShapes⟩

theorem notifyVel_dirty (f : Nat) (s : FrameState) (i : Nat)
    (h : s.needV i = true) :
    notifyVelocityUpdate (f+1) s i = notifyAccelerationUpdate (f+1) s i := by
  have hv : (notifyAccelerationUpdate (f+1) s i).needV i = true := by
    rw [(notifyAcc_step (f+1) s i).needV]; exact h
  simp [notifyVelocityUpdate, hv]

theorem notifyVel_clean (f : Nat) (s : FrameState) (i : Nat)
    (h : s.needV i = false) :
    notifyVelocityUpdate (f+1) s i
      = ((({ notifyAccelerationUpdate (f+1) s i with
             needV := Function.update (notifyAccelerationUpdate (f+1) s i).needV i true }
           : FrameState).childEntities i).foldl
          (fun t e => notifyVelocityUpdate f t e)
          { notifyAccelerationUpdate (f+1) s i with
            needV := Function.update (notifyAccelerationUpdate (f+1) s i).needV i true }) := by
  have hv : (notifyAccelerationUpdate (f+1) s i).needV i = false := by
    rw [(notifyAcc_step (f+1) s i).needV]; exact h
  simp [notifyVelocityUpdate, hv]

theorem notifyVel_step :
    ∀ (f : Nat) (s : FrameState) (i : Nat),
      VelStep s (notifyVelocityUpdate f s i) := by
  intro f
  induction f with
  | zero => intro s i; exact velStep_refl s
  | succ f ih =>
    intro s i
    have hacc : VelStep s (notifyAccelerationUpdate (f+1) s i) :=
      velStep_of_acc (notifyAcc_step (f+1) s i)
    by_cases h : s.needV i = true
    · rw [notifyVel_dirty f s i h]; exact hacc
    · have h' : s.needV i = false := by simpa using h
      rw [notifyVel_clean f s i h']
      have base : VelStep s
          { notifyAccelerationUpdate (f+1) s i with
            needV := Function.update (notifyAccelerationUpdate (f+1) s i).needV i true } := by
        refine velStep_trans hacc ⟨rfl, rfl, rfl, rfl, rfl, rfl, rfl, rfl, rfl, ?_, fun _ h => h, rfl⟩
        intro j hj
        show Function.update (notifyAccelerationUpdate (f+1) s i).needV i true j = true
        rw [Function.update_apply]
        by_cases hji : j = i
        · simp [hji]
        · simp [hji, hj]
      exact foldl_preserve (VelStep s) _ (fun t e _ ht => velStep_trans ht (ih t e)) _ base

theorem notifyVel_flags (f : Nat) (s : FrameState) (i : Nat) :
    (notifyVelocityUpdate (f+1) s i).needV i = true
    ∧ (notifyVelocityUpdate (f+1) s i).needA i = true := by
  have hA : (notifyAccelerationUpdate (f+1) s i).needA i = true :=
    notifyAcc_needA f s i
  by_cases h : s.needV i = true
  · rw [notifyVel_dirty f s i h]
    exact ⟨by rw [(notifyAcc_step (f+1) s i).needV]; exact h, hA⟩
  · have h' : s.needV i = false := by simpa using h
    rw [notifyVel_clean f s i h']
    refine foldl_preserve (fun t => t.needV i = true ∧ t.needA i = true) _
      (fun t e _ ht => ?_) _ ?_
    · exact ⟨(notifyVel_step f t e).needV_mono i ht.1,
             (notifyVel_step f t e).needA_mono i ht.2⟩
    · constructor
      · show Function.update (notifyAccelerationUpdate (f+1) s i).needV i true i = true
        simp [Function.update_same]
      · exact hA

/-- What one `notifyTransformUpdate` cascade can do: it only sets dirty
flags (any of the three). -/
structure TransStep (s s' : FrameState) : Prop where
  parent : s'.parent = s.parent
  isWorld : s'.isWorld = s.isWorld
  quiet : s'.quiet = s.quiet
  childEntities : s'.childEntities = s.childEntities
  childFrames : s'.childFrames = s.childFrames
  cachedT : s'.cachedT = s.cachedT
  cachedV : s'.cachedV = s.cachedV
  cachedA : s'.cachedA = s.cachedA
  needT_mono : ∀ j, s.needT j = true → s'.needT j = true
  needV_mono : ∀ j, s.needV j = true → s'.needV j = true
  needA_mono : ∀ j, s.needA j = true → s'.needA j = true
  vizShapes : s'.vizShapes = s.vizShapes

theorem transStep_refl (s : FrameState) : TransStep s s :=
  ⟨rfl, rfl, rfl, rfl, rfl, rfl, rfl, rfl,
   fun _ h => h, fun _ h => h, fun _ h => h, rfl⟩

theorem transStep_trans {s1 s2 s3 : FrameState}
    (a : TransStep s1 s2) (b : TransStep s2 s3) : TransStep s1 s3 :=
  ⟨b.parent.trans a.parent, b.isWorld.trans a.isWorld, b.quiet.trans a.quiet,
   b.childEntities.trans a.childEntities, b.childFrames.trans a.childFrames,
   b.cachedT.trans a.cachedT, b.cachedV.trans a.cachedV, b.cachedA.trans a.cachedA,
   fun j h => b.needT_mono j (a.needT_mono j h),
   fun j h => b.needV_mono j (a.needV_mono j h),
   fun j h => b.needA_mono j (a.needA_mono j h), b.vizShapes.trans a.vizShapes⟩

theorem transStep_of_vel {s s' : FrameState} (a : VelStep s s') : TransStep s s' :=
  ⟨a.parent, a.isWorld, a.quiet, a.childEntities, a.childFrames,
   a.cachedT, a.cachedV, a.cachedA,
   fun j h => by rw [a.needT]; exact h, a.needV_mono, a.needA_mono, a.vizShapes⟩

theorem notifyTrans_dirty (f : Nat) (s : FrameState) (i : Nat)
    (h : s.needT i = true) :
    notifyTransformUpdate (f+1) s i = notifyVelocityUpdate (f+1) s i := by
  have hv : (notifyVelocityUpdate (f+1) s i).needT i = true := by
    rw [(notifyVel_step (f+1) s i).needT]; exact h
  simp [notifyTransformUpdate, hv]

theorem notifyTrans_clean (f : Nat) (s : FrameState) (i : Nat)
    (h : s.needT i = false) :
    notifyTransformUpdate (f+1) s i
      = ((({ notifyVelocityUpdate (f+1) s i with
             needT := Function.update (notifyVelocityUpdate (f+1) s i).needT i true }
           : FrameState).childEntities i).foldl
          (fun t e => notifyTransformUpdate f t e)
          { notifyVelocityUpdate (f+1) s i with
            needT := Function.update (notifyVelocityUpdate (f+1) s i).needT i true }) := by
  have hv : (notifyVelocityUpdate (f+1) s i).needT i = false := by
    rw [(notifyVel_step (f+1) s i).needT]; exact h
  simp [notifyTransformUpdate, hv]

theorem notifyTrans_step :
    ∀ (f : Nat) (s : FrameState) (i : Nat),
      TransStep s (notifyTransformUpdate f s i) := by
  intro f
  induction f with
  | zero => intro s i; exact transStep_refl s
  | succ f ih =>
    intro s i
    have hvel : TransStep s (notifyVelocityUpdate (f+1) s i) :=
      transStep_of_vel (notifyVel_step (f+1) s i)
    by_cases h : s.needT i = true
    · rw [notifyTrans_dirty f s i h]; exact hvel
    · have h' : s.needT i = false := by simpa using h
      rw [notifyTrans_clean f s i h']
      have base : TransStep s
          { notifyVelocityUpdate (f+1) s i with
            needT := Function.update (notifyVelocityUpdate (f+1) s i).needT i true } := by
        refine transStep_trans hvel
          ⟨rfl, rfl, rfl, rfl, rfl, rfl, rfl, rfl, ?_, fun _ h => h, fun _ h => h, rfl⟩
        intro j hj
        show Function.update (notifyVelocityUpdate (f+1) s i).needT i true j = true
        rw [Function.update_apply]
        by_cases hji : j = i
        · simp [hji]
        · simp [hji, hj]
      exact foldl_preserve (TransStep s) _ (fun t e _ ht => transStep_trans ht (ih t e)) _ base

theorem notifyTrans_flags (f : Nat) (s : FrameState) (i : Nat) :
    (notifyTransformUpdate (f+1) s i).needT i = true
    ∧ (notifyTransformUpdate (f+1) s i).needV i = true
    ∧ (notifyTransformUpdate (f+1) s i).needA i = true := by
  have hVA := notifyVel_flags f s i
  by_cases h : s.needT i = true
  · rw [notifyTrans_dirty f s i h]
    exact ⟨by rw [(notifyVel_step (f+1) s i).needT]; exact h, hVA.1, hVA.2⟩
  · have h' : s.needT i = false := by simpa using h
    rw [notifyTrans_clean f s i h']
    refine foldl_preserve
      (fun t => t.needT i = true ∧ t.needV i = true ∧ t.needA i = true) _
      (fun t e _ ht => ?_) _ ?_
    · exact ⟨(notifyTrans_step f t e).needT_mono i ht.1,
             (notifyTrans_step f t e).needV_mono i ht.2.1,
             (notifyTrans_step f t e).needA_mono i ht.2.2⟩
    · refine ⟨?_, hVA.1, hVA.2⟩
      show Function.update (notifyVelocityUpdate (f+1) s i).needT i true i = true
      simp [Function.update_same]

/-- C3: `notifyTransformUpdate` (1) first unconditionally invokes
`notifyVelocityUpdate` — in particular, when the transform flag is already
dirty the whole call is exactly that velocity notification and no child's
`notifyTransformUpdate` runs; (2) `notifyVelocityUpdate` in turn
unconditionally invokes `notifyAccelerationUpdate`, returning exactly its
result when the velocity flag was already dirty; (3) when the transform
flag was clean the call sets it and recurses into every child entity; and
(4) dirty-marking is idempotent until the next recomputation: running
`notifyTransformUpdate` twice in a row equals running it once. -/
theorem claim_C3_notify_transform_protocol (f : Nat) (s : FrameState) (i : Nat) :
    (s.needT i = true →
       notifyTransformUpdate (f+1) s i = notifyVelocityUpdate (f+1) s i)
    ∧ (s.needV i = true →
       notifyVelocityUpdate (f+1) s i = notifyAccelerationUpdate (f+1) s i)
    ∧ (s.needT i = false →
       notifyTransformUpdate (f+1) s i
         = ((({ notifyVelocityUpdate (f+1) s i with
                needT := Function.update (notifyVelocityUpdate (f+1) s i).needT i true }
              : FrameState).childEntities i).foldl
             (fun t e => notifyTransformUpdate f t e)
             { notifyVelocityUpdate (f+1) s i with
               needT := Function.update (notifyVelocityUpdate (f+1) s i).needT i true }))
    ∧ notifyTransformUpdate (f+1) (notifyTransformUpdate (f+1) s i) i
        = notifyTransformUpdate (f+1) s i := by
  refine ⟨notifyTrans_dirty f s i, notifyVel_dirty f s i, notifyTrans_clean f s i, ?_⟩
  have hfl := notifyTrans_flags f s i
  rw [notifyTrans_dirty f _ i hfl.1, notifyVel_dirty f _ i hfl.2.1,
      notifyAcc_dirty (f+1) _ i hfl.2.2]

theorem claim_C3_witness :
    chainState.needT 1 = true
    ∧ notifyTransformUpdate 1 chainState 1 = notifyVelocityUpdate 1 chainState 1 :=
  ⟨rfl, (claim_C3_notify_transform_protocol 0 chainState 1).1 rfl⟩

/- ### Reparenting (Frame.cpp:382-416) -/

/-- Modelled from the spec: the dependency check `_newParentFrame->dependsOn(this)`
(declared in a header not under `src/`).  Per spec §4.2 the rejected case is
"`newParent` is this frame or a descendant of this frame", so
`dependsOn f s p q` walks `p`'s ancestor chain (inclusive) looking for `q`,
stopping at the self-parented World root; fuel bounds the walk. -/
def dependsOn : Nat → FrameState → Nat → Nat → Bool
  | 0, _, _, _ => false
  | f+1, s, p, q =>
    if p = q then true
    else if s.isWorld p then false
    else
      match s.parent p with
      | none => false
      | some r => dependsOn f s r q

/-- Modelled from the spec (§4.1): `Entity::changeParentFrame` (Entity.cpp is
not under `src/`): "removes the entity from its old parent's child-entity
set (unless suppressed), updates the parent reference, and — unless
suppressed — registers the entity into the new parent's child-entity set";
a null new parent detaches without registering anywhere. -/
def entityChangeParentFrame (s : FrameState) (e : Nat) (newP : Option Nat) : FrameState :=
  let ce1 : Nat → List Nat :=
    if s.quiet e then s.childEntities
    else
      match s.parent e with
      | none => s.childEntities
      | some op => Function.update s.childEntities op ((s.childEntities op).erase e)
  let ce2 : Nat → List Nat :=
    match newP with
    | none => ce1
    | some np => if s.quiet e then ce1 else Function.update ce1 np ((ce1 np).insert e)
  { s with parent := Function.update s.parent e newP, childEntities := ce2 }

/-- The erase-from-the-old-parent's-child-frame-set step at the top of the
accepting path of `Frame::changeParentFrame` (Frame.cpp:400-405). -/
def cpfAux (s : FrameState) (i : Nat) : FrameState :=
  { s with childFrames :=
      match s.parent i with
      | none => s.childFrames
      | some op => Function.update s.childFrames op ((s.childFrames op).erase i) }

/-- `Frame::changeParentFrame` (Frame.cpp:382-416): reject (diagnostic only,
state unchanged) when the new parent depends on this frame, unless both are
the World frame; otherwise erase this frame from the old parent's
child-frame set, delegate to the Entity contract, and — for a non-null new
parent, when not suppressed — insert into the new parent's child-frame set. -/
def changeParentFrame (f : Nat) (s : FrameState) (i : Nat) (newP : Option Nat) : FrameState :=
  let reject : Bool :=
    match newP with
    | some np => dependsOn f s np i && !(s.isWorld i && s.isWorld np)
    | none => false
  if reject then s
  else
    match newP with
    | none => entityChangeParentFrame (cpfAux s i) i none
    | some np =>
      let s2 := entityChangeParentFrame (cpfAux s i) i (some np)
      if s2.quiet i then s2
      else
        { s2 with childFrames :=
            Function.update s2.childFrames np ((s2.childFrames np).insert i) }

/-- What a reparenting step can do: it only changes parent pointers and the
two child sets; flags, caches, primitives and identity bits are untouched. -/
structure RelStep (s s' : FrameState) : Prop where
  isWorld : s'.isWorld = s.isWorld
  quiet : s'.quiet = s.quiet
  needT : s'.needT = s.needT
  needV : s'.needV = s.needV
  needA : s'.needA = s.needA
  cachedT : s'.cachedT = s.cachedT
  cachedV : s'.cachedV = s.cachedV
  cachedA : s'.cachedA = s.cachedA
  relT : s'.relT = s.relT
  relV : s'.relV = s.relV
  primAcc : s'.primAcc = s.primAcc
  partAcc : s'.partAcc = s.partAcc
  vizShapes : s'.vizShapes = s.vizShapes

theorem relStep_refl (s : FrameState) : RelStep s s :=
  ⟨rfl, rfl, rfl, rfl, rfl, rfl, rfl, rfl, rfl, rfl, rfl, rfl, rfl⟩

theorem relStep_trans {s1 s2 s3 : FrameState}
    (a : RelStep s1 s2) (b : RelStep s2 s3) : RelStep s1 s3 :=
  ⟨b.isWorld.trans a.isWorld, b.quiet.trans a.quiet, b.needT.trans a.needT,
   b.needV.trans a.needV, b.needA.trans a.needA, b.cachedT.trans a.cachedT,
   b.cachedV.trans a.cachedV, b.cachedA.trans a.cachedA, b.relT.trans a.relT,
   b.relV.trans a.relV, b.primAcc.trans a.primAcc, b.partAcc.trans a.partAcc,
   b.vizShapes.trans a.vizShapes⟩

theorem entityCPF_relStep (s : FrameState) (e : Nat) (np : Option Nat) :
    RelStep s (entityChangeParentFrame s e np) :=
  ⟨rfl, rfl, rfl, rfl, rfl, rfl, rfl, rfl, rfl, rfl, rfl, rfl, rfl⟩

theorem entityCPF_parent (s : FrameState) (e : Nat) (np : Option Nat) :
    (entityChangeParentFrame s e np).parent = Function.update s.parent e np := rfl

theorem entityCPF_childFrames (s : FrameState) (e : Nat) (np : Option Nat) :
    (entityChangeParentFrame s e np).childFrames = s.childFrames := rfl

theorem cpfAux_relStep (s : FrameState) (i : Nat) : RelStep s (cpfAux s i) :=
  ⟨rfl, rfl, rfl, rfl, rfl, rfl, rfl, rfl, rfl, rfl, rfl, rfl, rfl⟩

theorem cpfAux_parent (s : FrameState) (i : Nat) : (cpfAux s i).parent = s.parent := rfl

theorem cpfAux_childEntities (s : FrameState) (i : Nat) :
    (cpfAux s i).childEntities = s.childEntities := rfl

theorem cpf_reject (f : Nat) (s : FrameState) (i np : Nat)
    (hr : (dependsOn f s np i && !(s.isWorld i && s.isWorld np)) = true) :
    changeParentFrame f s i (some np) = s := by
  simp only [changeParentFrame]
  rw [hr]
  rfl

theorem cpf_none_eq (f : Nat) (s : FrameState) (i : Nat) :
    changeParentFrame f s i none = entityChangeParentFrame (cpfAux s i) i none := rfl

theorem cpf_some_eq (f : Nat) (s : FrameState) (i np : Nat)
    (hr : (dependsOn f s np i && !(s.isWorld i && s.isWorld np)) = false) :
    changeParentFrame f s i (some np)
      = (if (entityChangeParentFrame (cpfAux s i) i (some np)).quiet i
         then entityChangeParentFrame (cpfAux s i) i (some np)
         else
           { entityChangeParentFrame (cpfAux s i) i (some np) with
             childFrames := Function.update
               (entityChangeParentFrame (cpfAux s i) i (some np)).childFrames np
               (((entityChangeParentFrame (cpfAux s i) i (some np)).childFrames np).insert i) }) := by
  simp only [changeParentFrame]
  rw [hr]
  rfl

theorem cpf_relStep (f : Nat) (s : FrameState) (i : Nat) (np : Option Nat) :
    RelStep s (changeParentFrame f s i np) := by
  cases np with
  | none =>
    rw [cpf_none_eq]
    exact relStep_trans (cpfAux_relStep s i) (entityCPF_relStep _ i none)
  | some np =>
    by_cases hr : (dependsOn f s np i && !(s.isWorld i && s.isWorld np)) = true
    · rw [cpf_reject f s i np hr]
      exact relStep_refl s
    · have hr' : (dependsOn f s np i && !(s.isWorld i && s.isWorld np)) = false := by
        simpa using hr
      rw [cpf_some_eq f s i np hr']
      have h12 : RelStep s (entityChangeParentFrame (cpfAux s i) i (some np)) :=
        relStep_trans (cpfAux_relStep s i) (entityCPF_relStep _ i (some np))
      by_cases hq : (entityChangeParentFrame (cpfAux s i) i (some np)).quiet i = true
      · rw [if_pos hq]
        exact h12
      · rw [if_neg hq]
        exact relStep_trans h12
          ⟨rfl, rfl, rfl, rfl, rfl, rfl, rfl, rfl, rfl, rfl, rfl, rfl, rfl⟩

theorem cpf_none_parent (f : Nat) (s : FrameState) (i : Nat) :
    (changeParentFrame f s i none).parent = Function.update s.parent i none := rfl

theorem cpf_some_parent (f : Nat) (s : FrameState) (i np : Nat)
    (hr : (dependsOn f s np i && !(s.isWorld i && s.isWorld np)) = false) :
    (changeParentFrame f s i (some np)).parent = Function.update s.parent i (some np) := by
  rw [cpf_some_eq f s i np hr]
  by_cases hq : (entityChangeParentFrame (cpfAux s i) i (some np)).quiet i = true
  · rw [if_pos hq]
    rfl
  · rw [if_neg hq]
    rfl

theorem cpf_parent_other (f : Nat) (s : FrameState) (i : Nat) (np : Option Nat)
    (j : Nat) (hj : j ≠ i) :
    (changeParentFrame f s i np).parent j = s.parent j := by
  cases np with
  | none =>
    rw [cpf_none_parent, Function.update_apply]
    simp [hj]
  | some np =>
    by_cases hr : (dependsOn f s np i && !(s.isWorld i && s.isWorld np)) = true
    · rw [cpf_reject f s i np hr]
    · have hr' : (dependsOn f s np i && !(s.isWorld i && s.isWorld np)) = false := by
        simpa using hr
      rw [cpf_some_parent f s i np hr', Function.update_apply]
      simp [hj]

/-- C4: attempting to reparent frame `i` onto a frame `p` that depends on
`i` (is `i` itself or a descendant of `i`) is rejected with no state change
whatsoever — unless both frames are the World frame, in which case the
bootstrap self-loop goes through and `i`'s parent pointer becomes `p`. -/
theorem claim_C4_cycle_rejection (f : Nat) (s : FrameState) (i p : Nat) :
    (dependsOn f s p i = true → ¬(s.isWorld i = true ∧ s.isWorld p = true) →
       changeParentFrame f s i (some p) = s)
    ∧ (s.isWorld i = true → s.isWorld p = true →
       (changeParentFrame f s i (some p)).parent i = some p) := by
  constructor
  · intro hd hw
    apply cpf_reject
    have hb : (s.isWorld i && s.isWorld p) = false := by
      cases hI : s.isWorld i <;> cases hP : s.isWorld p <;> simp_all
    rw [hd, hb]
    rfl
  · intro h1 h2
    have hr : (dependsOn f s p i && !(s.isWorld i && s.isWorld p)) = false := by
      rw [h1, h2]
      simp
    rw [cpf_some_parent f s i p hr, Function.update_same]

theorem claim_C4_witness :
    dependsOn 2 chainState 0 1 = true
    ∧ ¬(chainState.isWorld 1 = true ∧ chainState.isWorld 0 = true)
    ∧ changeParentFrame 2 chainState 1 (some 0) = chainState
    ∧ (chainState.isWorld 3 = true
       ∧ (changeParentFrame 1 chainState 3 (some 3)).parent 3 = some 3) :=
  ⟨by decide, by decide,
   (claim_C4_cycle_rejection 2 chainState 1 0).1 (by decide) (by decide),
   rfl, (claim_C4_cycle_rejection 1 chainState 3 3).2 rfl rfl⟩


/- ### Destruction (Frame.cpp:60-89) -/

/-- `Frame::~Frame` (Frame.cpp:60-89): a World frame does nothing; otherwise
detach from the parent (`changeParentFrame(NULL)`), reparent every child
entity to the World frame `w` (iterating the child set as captured after the
detach, matching the C++ post-increment iteration), and free the
visualization shapes. -/
def destroyFrame (f : Nat) (s : FrameState) (i w : Nat) : FrameState :=
  if s.isWorld i then s
  else
    let s1 := changeParentFrame f s i none
    let s2 := (s1.childEntities i).foldl (fun t e => changeParentFrame f t e (some w)) s1
    { s2 with vizShapes := Function.update s2.vizShapes i [] }

theorem destroy_world (f : Nat) (s : FrameState) (i w : Nat)
    (h : s.isWorld i = true) : destroyFrame f s i w = s := by
  simp only [destroyFrame]
  rw [h]
  rfl

theorem destroy_eq (f : Nat) (s : FrameState) (i w : Nat)
    (h : s.isWorld i = false) :
    destroyFrame f s i w
      = { ((changeParentFrame f s i none).childEntities i).foldl
            (fun t e => changeParentFrame f t e (some w)) (changeParentFrame f s i none) with
          vizShapes := Function.update
            (((changeParentFrame f s i none).childEntities i).foldl
              (fun t e => changeParentFrame f t e (some w))
              (changeParentFrame f s i none)).vizShapes i [] } := by
  simp only [destroyFrame]
  rw [h]
  rfl

theorem entityCPF_ce_quiet (s : FrameState) (e : Nat) (np : Option Nat)
    (hq : s.quiet e = true) :
    (entityChangeParentFrame s e np).childEntities = s.childEntities := by
  unfold entityChangeParentFrame
  cases np <;> simp [hq]

theorem entityCPF_ce_loud_none (s : FrameState) (e : Nat) (hq : s.quiet e = false) :
    (entityChangeParentFrame s e none).childEntities
      = match s.parent e with
        | none => s.childEntities
        | some op => Function.update s.childEntities op ((s.childEntities op).erase e) := by
  unfold entityChangeParentFrame
  simp [hq]

theorem entityCPF_ce_loud_some (s : FrameState) (e np : Nat) (hq : s.quiet e = false) :
    (entityChangeParentFrame s e (some np)).childEntities
      = Function.update
          (match s.parent e with
           | none => s.childEntities
           | some op => Function.update s.childEntities op ((s.childEntities op).erase e)) np
          (((match s.parent e with
             | none => s.childEntities
             | some op => Function.update s.childEntities op ((s.childEntities op).erase e)) np).insert e) := by
  unfold entityChangeParentFrame
  simp [hq]

theorem notMem_eraseUpd (g : Nat → List Nat) (op e x k : Nat) (h1 : x ∉ g k) :
    x ∉ Function.update g op ((g op).erase e) k := by
  rw [Function.update_apply]
  by_cases hk : k = op
  · rw [if_pos hk]
    intro hmem
    exact h1 (by rw [hk]; exact List.mem_of_mem_erase hmem)
  · rw [if_neg hk]
    exact h1

theorem notMem_insertUpd (g : Nat → List Nat) (np e x k : Nat)
    (hx : x ≠ e) (h1 : x ∉ g k) :
    x ∉ Function.update g np ((g np).insert e) k := by
  rw [Function.update_apply]
  by_cases hk : k = np
  · rw [if_pos hk]
    intro hmem
    rcases List.mem_insert_iff.mp hmem with h | h
    · exact hx h
    · exact h1 (by rw [hk]; exact h)
  · rw [if_neg hk]
    exact h1

theorem notMem_parentMatch (s : FrameState) (g : Nat → List Nat) (e x k : Nat)
    (h1 : x ∉ g k) :
    x ∉ (match s.parent e with
         | none => g
         | some op => Function.update g op ((g op).erase e)) k := by
  cases hpe : s.parent e with
  | none => exact h1
  | some op => exact notMem_eraseUpd g op e x k h1

theorem entityCPF_not_mem_ce (s : FrameState) (e : Nat) (np : Option Nat) (x j : Nat)
    (hx : x ≠ e) (h1 : x ∉ s.childEntities j) :
    x ∉ (entityChangeParentFrame s e np).childEntities j := by
  by_cases hq : s.quiet e = true
  · rw [entityCPF_ce_quiet s e np hq]
    exact h1
  · have hq' : s.quiet e = false := by simpa using hq
    cases np with
    | none =>
      rw [entityCPF_ce_loud_none s e hq']
      exact notMem_parentMatch s s.childEntities e x j h1
    | some np =>
      rw [entityCPF_ce_loud_some s e np hq']
      exact notMem_insertUpd _ np e x j hx (notMem_parentMatch s s.childEntities e x j h1)

theorem cpfAux_not_mem_cf (s : FrameState) (i x j : Nat) (h2 : x ∉ s.childFrames j) :
    x ∉ (cpfAux s i).childFrames j :=
  notMem_parentMatch s s.childFrames i x j h2

theorem cpf_not_mem (f : Nat) (s : FrameState) (e : Nat) (np : Option Nat) (x j : Nat)
    (hx : x ≠ e) (h1 : x ∉ s.childEntities j) (h2 : x ∉ s.childFrames j) :
    x ∉ (changeParentFrame f s e np).childEntities j
    ∧ x ∉ (changeParentFrame f s e np).childFrames j := by
  cases np with
  | none =>
    rw [cpf_none_eq]
    constructor
    · exact entityCPF_not_mem_ce (cpfAux s e) e none x j hx h1
    · rw [entityCPF_childFrames]
      exact cpfAux_not_mem_cf s e x j h2
  | some np =>
    by_cases hr : (dependsOn f s np e && !(s.isWorld e && s.isWorld np)) = true
    · rw [cpf_reject f s e np hr]
      exact ⟨h1, h2⟩
    · have hr' : (dependsOn f s np e && !(s.isWorld e && s.isWorld np)) = false := by
        simpa using hr
      rw [cpf_some_eq f s e np hr']
      by_cases hq : (entityChangeParentFrame (cpfAux s e) e (some np)).quiet e = true
      · rw [if_pos hq]
        refine ⟨entityCPF_not_mem_ce (cpfAux s e) e (some np) x j hx h1, ?_⟩
        rw [entityCPF_childFrames]
        exact cpfAux_not_mem_cf s e x j h2
      · rw [if_neg hq]
        constructor
        · show x ∉ (entityChangeParentFrame (cpfAux s e) e (some np)).childEntities j
          exact entityCPF_not_mem_ce (cpfAux s e) e (some np) x j hx h1
        · show x ∉ Function.update
            (entityChangeParentFrame (cpfAux s e) e (some np)).childFrames np
            (((entityChangeParentFrame (cpfAux s e) e (some np)).childFrames np).insert e) j
          refine notMem_insertUpd _ np e x j hx ?_
          rw [entityCPF_childFrames]
          exact cpfAux_not_mem_cf s e x j h2

theorem reparent_fold_parent (f : Nat) (w : Nat) :
    ∀ (l : List Nat) (t : FrameState),
      t.isWorld w = true → (∀ e ∈ l, e ≠ w) → l.Nodup →
      ∀ e ∈ l,
        (l.foldl (fun t e => changeParentFrame (f+1) t e (some w)) t).parent e = some w := by
  intro l
  induction l with
  | nil => intro t _ _ _ e he; exact absurd he (List.not_mem_nil e)
  | cons a rest ih =>
    intro t hw hne hnd e he
    rw [List.foldl_cons]
    have hwa : a ≠ w := hne a (List.mem_cons_self a rest)
    have hdep : dependsOn (f+1) t w a = false := by
      have hwa' : ¬(w = a) := fun h => hwa h.symm
      simp [dependsOn, hw, hwa']
    have hr : (dependsOn (f+1) t w a && !(t.isWorld a && t.isWorld w)) = false := by
      rw [hdep]
      rfl
    have hpa : (changeParentFrame (f+1) t a (some w)).parent a = some w := by
      rw [cpf_some_parent (f+1) t a w hr, Function.update_same]
    have hw1 : (changeParentFrame (f+1) t a (some w)).isWorld w = true := by
      rw [(cpf_relStep (f+1) t a (some w)).isWorld]
      exact hw
    rcases List.mem_cons.mp he with rfl | hrest
    · have hanotin : e ∉ rest := (List.nodup_cons.mp hnd).1
      refine foldl_preserve (fun u => u.parent e = some w) rest ?_ _ hpa
      intro u e' he' hp
      have hne' : e ≠ e' := fun hae => hanotin (hae ▸ he')
      rw [cpf_parent_other (f+1) u e' (some w) e hne']
      exact hp
    · exact ih (changeParentFrame (f+1) t a (some w)) hw1
        (fun e' he' => hne e' (List.mem_cons_of_mem a he'))
        (List.nodup_cons.mp hnd).2 e hrest

/-- C9: destroying a non-world frame `i` (with parent `p0`, in a
well-formed state) leaves every former child entity parented to the World
frame `w`, clears `i`'s visualization-shape list, and removes `i` from its
old parent's child-entity and child-frame sets, so no entity references the
destroyed frame; destroying a World frame changes nothing. -/
theorem claim_C9_destructor
    (f : Nat) (s : FrameState) (i w p0 : Nat)
    (hni : s.isWorld i = false) (hw : s.isWorld w = true)
    (hq : s.quiet i = false) (hp : s.parent i = some p0)
    (hiw : ∀ e ∈ s.childEntities i, e ≠ w)
    (hii : ∀ e ∈ s.childEntities i, e ≠ i)
    (hnd : (s.childEntities i).Nodup)
    (hndE : (s.childEntities p0).Nodup)
    (hndF : (s.childFrames p0).Nodup) :
    (∀ e ∈ s.childEntities i, (destroyFrame (f+1) s i w).parent e = some w)
    ∧ (destroyFrame (f+1) s i w).vizShapes i = []
    ∧ i ∉ (destroyFrame (f+1) s i w).childEntities p0
    ∧ i ∉ (destroyFrame (f+1) s i w).childFrames p0
    ∧ (∀ j, s.isWorld j = true → destroyFrame (f+1) s j w = s) := by
  have hs1ce : (changeParentFrame (f+1) s i none).childEntities
      = Function.update s.childEntities p0 ((s.childEntities p0).erase i) := by
    rw [cpf_none_eq, entityCPF_ce_loud_none (cpfAux s i) i hq]
    show (match s.parent i with
          | none => s.childEntities
          | some op => Function.update s.childEntities op ((s.childEntities op).erase i)) = _
    rw [hp]
  have hs1cf : (changeParentFrame (f+1) s i none).childFrames
      = Function.update s.childFrames p0 ((s.childFrames p0).erase i) := by
    rw [cpf_none_eq, entityCPF_childFrames]
    show (match s.parent i with
          | none => s.childFrames
          | some op => Function.update s.childFrames op ((s.childFrames op).erase i)) = _
    rw [hp]
  have hcs : (changeParentFrame (f+1) s i none).childEntities i = s.childEntities i := by
    rw [hs1ce, Function.update_apply]
    by_cases hip : i = p0
    · rw [if_pos hip]
      have hnotin : i ∉ s.childEntities p0 := by
        rw [← hip]
        intro hm
        exact hii i hm rfl
      rw [List.erase_of_not_mem hnotin, hip]
    · rw [if_neg hip]
  have hw1 : (changeParentFrame (f+1) s i none).isWorld w = true := by
    rw [(cpf_relStep (f+1) s i none).isWorld]
    exact hw
  refine ⟨?_, ?_, ?_, ?_, fun j hj => destroy_world (f+1) s j w hj⟩
  · intro e he
    rw [destroy_eq (f+1) s i w hni]
    show (((changeParentFrame (f+1) s i none).childEntities i).foldl
        (fun t e => changeParentFrame (f+1) t e (some w))
        (changeParentFrame (f+1) s i none)).parent e = some w
    rw [hcs]
    exact reparent_fold_parent f w (s.childEntities i)
      (changeParentFrame (f+1) s i none) hw1 hiw hnd e he
  · rw [destroy_eq (f+1) s i w hni]
    show Function.update
      (((changeParentFrame (f+1) s i none).childEntities i).foldl
        (fun t e => changeParentFrame (f+1) t e (some w))
        (changeParentFrame (f+1) s i none)).vizShapes i [] i = []
    rw [Function.update_same]
  · rw [destroy_eq (f+1) s i w hni]
    show i ∉ (((changeParentFrame (f+1) s i none).childEntities i).foldl
        (fun t e => changeParentFrame (f+1) t e (some w))
        (changeParentFrame (f+1) s i none)).childEntities p0
    rw [hcs]
    have hbase : i ∉ (changeParentFrame (f+1) s i none).childEntities p0
        ∧ i ∉ (changeParentFrame (f+1) s i none).childFrames p0 := by
      constructor
      · rw [hs1ce, Function.update_same]
        intro hm
        exact (hndE.mem_erase_iff.mp hm).1 rfl
      · rw [hs1cf, Function.update_same]
        intro hm
        exact (hndF.mem_erase_iff.mp hm).1 rfl
    exact (foldl_preserve
      (fun u => i ∉ u.childEntities p0 ∧ i ∉ u.childFrames p0)
      (s.childEntities i)
      (fun u e' he' hP => cpf_not_mem (f+1) u e' (some w) i p0
        (fun hie => hii e' he' hie.symm) hP.1 hP.2)
      _ hbase).1
  · rw [destroy_eq (f+1) s i w hni]
    show i ∉ (((changeParentFrame (f+1) s i none).childEntities i).foldl
        (fun t e => changeParentFrame (f+1) t e (some w))
        (changeParentFrame (f+1) s i none)).childFrames p0
    rw [hcs]
    have hbase : i ∉ (changeParentFrame (f+1) s i none).childEntities p0
        ∧ i ∉ (changeParentFrame (f+1) s i none).childFrames p0 := by
      constructor
      · rw [hs1ce, Function.update_same]
        intro hm
        exact (hndE.mem_erase_iff.mp hm).1 rfl
      · rw [hs1cf, Function.update_same]
        intro hm
        exact (hndF.mem_erase_iff.mp hm).1 rfl
    exact (foldl_preserve
      (fun u => i ∉ u.childEntities p0 ∧ i ∉ u.childFrames p0)
      (s.childEntities i)
      (fun u e' he' hP => cpf_not_mem (f+1) u e' (some w) i p0
        (fun hie => hii e' he' hie.symm) hP.1 hP.2)
      _ hbase).2

theorem claim_C9_witness :
    chainState.isWorld 1 = false ∧ chainState.isWorld 3 = true
    ∧ chainState.quiet 1 = false ∧ chainState.parent 1 = some 2
    ∧ (∀ e ∈ chainState.childEntities 1, (destroyFrame 1 chainState 1 3).parent e = some 3)
    ∧ (destroyFrame 1 chainState 1 3).vizShapes 1 = [] :=
  ⟨rfl, rfl, rfl, rfl,
   (claim_C9_destructor 0 chainState 1 3 2 rfl rfl rfl rfl
     (by decide) (by decide) (by decide) (by decide) (by decide)).1,
   (claim_C9_destructor 0 chainState 1 3 2 rfl rfl rfl rfl
     (by decide) (by decide) (by decide) (by decide) (by decide)).2.1⟩


/- ### Spatial velocity and acceleration queries (Frame.cpp:114-246) -/

/-- `Frame::getSpatialVelocity()` (Frame.cpp:125-140): cached; when dirty,
recompute as `AdInvT(relativeTransform, parent velocity) + relativeSpatialVelocity`
and clear the flag. -/
def getSpatialVel : Nat → FrameState → Nat → Vec6 × FrameState
  | 0, s, i => (s.cachedV i, s)
  | fuel+1, s, i =>
    if s.isWorld i then (s.cachedV i, s)
    else if s.needV i then
      match s.parent i with
      | none => (s.cachedV i, s)
      | some p =>
        let r := getSpatialVel fuel s p
        let newV := Vec6.add (AdInvT (s.relT i) r.1) (s.relV i)
        (newV,
         { r.2 with
           cachedV := Function.update r.2.cachedV i newV,
           needV := Function.update r.2.needV i false })
    else (s.cachedV i, s)

/-- `Frame::getSpatialAcceleration()` (Frame.cpp:179-195): cached; when
dirty, recompute as `AdInvT(relativeTransform, parent acceleration)
+ primaryRelativeAcceleration + partialAcceleration` and clear the flag. -/
def getSpatialAcc : Nat → FrameState → Nat → Vec6 × FrameState
  | 0, s, i => (s.cachedA i, s)
  | fuel+1, s, i =>
    if s.isWorld i then (s.cachedA i, s)
    else if s.needA i then
      match s.parent i with
      | none => (s.cachedA i, s)
      | some p =>
        let r := getSpatialAcc fuel s p
        let newA := Vec6.add (Vec6.add (AdInvT (s.relT i) r.1) (s.primAcc i)) (s.partAcc i)
        (newA,
         { r.2 with
           cachedA := Function.update r.2.cachedA i newA,
           needA := Function.update r.2.needA i false })
    else (s.cachedA i, s)

/-- `Frame::getTransform(withRespectTo)` (Frame.cpp:114-122): World →
world transform; direct parent → relative transform; otherwise
`inverse(other world) * own world`.  C++ leaves the evaluation order of the
two operands of `*` unspecified; we evaluate `withRespectTo` first. -/
def getTransform (fuel : Nat) (s : FrameState) (i j : Nat) : Iso3 × FrameState :=
  if s.isWorld j then
    let r := getWorldTransform fuel s i
    (r.1, r.2.1)
  else if s.parent i = some j then (s.relT i, s)
  else
    let rj := getWorldTransform fuel s j
    let ri := getWorldTransform fuel rj.2.1 i
    (Iso3.comp (Iso3.inv rj.1) ri.1, ri.2.1)

/-- `Frame::getSpatialVelocity(relativeTo, inCoordinatesOf)`
(Frame.cpp:155-162): `AdR(getTransform(inCoordsOf), own velocity
- AdT(relativeTo.getTransform(this), relativeTo velocity))`; subcalls are
threaded through the state in source-text order. -/
def getSpatialVelRel (fuel : Nat) (s : FrameState) (i r c : Nat) : Vec6 × FrameState :=
  let t1 := getTransform fuel s i c
  let v0 := getSpatialVel fuel t1.2 i
  let t2 := getTransform fuel v0.2 r i
  let vr := getSpatialVel fuel t2.2 r
  (AdR t1.1 (Vec6.sub v0.1 (AdT t2.1 vr.1)), vr.2)

/-- `Frame::getLinearVelocity(relativeTo, inCoordinatesOf)`
(Frame.cpp:165-169): the tail-3 block of the relative spatial velocity. -/
def getLinearVelRel (fuel : Nat) (s : FrameState) (i r c : Nat) : Vec3 × FrameState :=
  let v := getSpatialVelRel fuel s i r c
  (v.1.lin, v.2)

/-- `Frame::getAngularVelocity(relativeTo, inCoordinatesOf)`
(Frame.cpp:172-176): the head-3 block of the relative spatial velocity. -/
def getAngularVelRel (fuel : Nat) (s : FrameState) (i r c : Nat) : Vec3 × FrameState :=
  let v := getSpatialVelRel fuel s i r c
  (v.1.ang, v.2)

/-- `Frame::getSpatialAcceleration(relativeTo, inCoordinatesOf)`
(Frame.cpp:211-227): `AdR(getTransform(inCoordsOf), own acceleration
- AdT(relativeTo.getTransform(this), relativeTo acceleration)
- ad(own velocity, getSpatialVelocity(relativeTo, this)))`. -/
def getSpatialAccRel (fuel : Nat) (s : FrameState) (i r c : Nat) : Vec6 × FrameState :=
  let t1 := getTransform fuel s i c
  let a0 := getSpatialAcc fuel t1.2 i
  let t2 := getTransform fuel a0.2 r i
  let ar := getSpatialAcc fuel t2.2 r
  let v0 := getSpatialVel fuel ar.2 i
  let vri := getSpatialVelRel fuel v0.2 i r i
  (AdR t1.1 (Vec6.sub (Vec6.sub a0.1 (AdT t2.1 ar.1)) (ad v0.1 vri.1)), vri.2)

/-- `Frame::getLinearAcceleration(relativeTo, inCoordinatesOf)`
(Frame.cpp:230-239): compute the relative spatial velocity `v_rel` first,
then `spatial acceleration tail-3 + v_rel.head-3 × v_rel.tail-3`. -/
def getLinearAccRel (fuel : Nat) (s : FrameState) (i r c : Nat) : Vec3 × FrameState :=
  let vrel := getSpatialVelRel fuel s i r c
  let arel := getSpatialAccRel fuel vrel.2 i r c
  (arel.1.lin + cross vrel.1.ang vrel.1.lin, arel.2)

/-- `Frame::getAngularAcceleration(relativeTo, inCoordinatesOf)`
(Frame.cpp:242-246): the head-3 block of the relative spatial acceleration. -/
def getAngularAccRel (fuel : Nat) (s : FrameState) (i r c : Nat) : Vec3 × FrameState :=
  let a := getSpatialAccRel fuel s i r c
  (a.1.ang, a.2)

/-- All three dirty flags clear everywhere: the state of a fully evaluated
(or freshly recomputed) tree, in which the cached getters are pure. -/
def CleanFlags (s : FrameState) : Prop :=
  ∀ j, s.needT j = false ∧ s.needV j = false ∧ s.needA j = false

theorem getSV_clean (f : Nat) (s : FrameState) (i : Nat) (h : s.needV i = false) :
    getSpatialVel (f+1) s i = (s.cachedV i, s) := by
  by_cases hw : s.isWorld i = true <;> simp [getSpatialVel, h, hw]

theorem getSA_clean (f : Nat) (s : FrameState) (i : Nat) (h : s.needA i = false) :
    getSpatialAcc (f+1) s i = (s.cachedA i, s) := by
  by_cases hw : s.isWorld i = true <;> simp [getSpatialAcc, h, hw]

/-- The pure value of `getTransform` on a clean state. -/
def tfOf (s : FrameState) (i j : Nat) : Iso3 :=
  if s.isWorld j then s.cachedT i
  else if s.parent i = some j then s.relT i
  else Iso3.comp (Iso3.inv (s.cachedT j)) (s.cachedT i)

theorem getT_clean (f : Nat) (s : FrameState) (i j : Nat) (hc : CleanFlags s) :
    getTransform (f+1) s i j = (tfOf s i j, s) := by
  unfold getTransform tfOf
  by_cases hj : s.isWorld j = true
  · simp [hj, getWT_clean f s i (hc i).1]
  · by_cases hpij : s.parent i = some j
    · simp [hj, hpij]
    · simp [hj, hpij, getWT_clean f s j (hc j).1, getWT_clean f s i (hc i).1]

theorem getSVRel_clean_state (f : Nat) (s : FrameState) (i r c : Nat)
    (hc : CleanFlags s) : (getSpatialVelRel (f+1) s i r c).2 = s := by
  simp [getSpatialVelRel, getT_clean f s i c hc, getT_clean f s r i hc,
    getSV_clean f s i (hc i).2.1, getSV_clean f s r (hc r).2.1]

/-- C6: on a clean state, the two-argument `getSpatialVelocity(relativeTo,
inCoordsOf)` equals the rotational adjoint of `getTransform(inCoordsOf)`
applied to (own spatial velocity minus the full-adjoint transport of
`relativeTo`'s velocity through `relativeTo.getTransform(this)`); and the
two-argument linear/angular velocity accessors are exactly the tail-3 and
head-3 projections of that 6-vector. -/
theorem claim_C6_relative_spatial_velocity (f : Nat) (s : FrameState) (i r c : Nat)
    (hc : CleanFlags s) :
    (getSpatialVelRel (f+1) s i r c).1
      = AdR (getTransform (f+1) s i c).1
          (Vec6.sub (getSpatialVel (f+1) s i).1
            (AdT (getTransform (f+1) s r i).1 (getSpatialVel (f+1) s r).1))
    ∧ (getLinearVelRel (f+1) s i r c).1 = (getSpatialVelRel (f+1) s i r c).1.lin
    ∧ (getAngularVelRel (f+1) s i r c).1 = (getSpatialVelRel (f+1) s i r c).1.ang := by
  refine ⟨?_, rfl, rfl⟩
  simp [getSpatialVelRel, getT_clean f s i c hc, getT_clean f s r i hc,
    getSV_clean f s i (hc i).2.1, getSV_clean f s r (hc r).2.1]

/-- C5: on a clean state, the two-argument
`getSpatialAcceleration(relativeTo, inCoordsOf)` equals the rotational
adjoint of `getTransform(inCoordsOf)` applied to (own spatial acceleration,
minus the full-adjoint transport of `relativeTo`'s acceleration through
`relativeTo.getTransform(this)`, minus the Lie bracket of own spatial
velocity with `getSpatialVelocity(relativeTo, this)`); and the two-argument
`getLinearAcceleration` is the tail-3 of that spatial acceleration plus the
cross product of the head-3 with the tail-3 of
`getSpatialVelocity(relativeTo, inCoordsOf)`. -/
theorem claim_C5_relative_spatial_acceleration (f : Nat) (s : FrameState) (i r c : Nat)
    (hc : CleanFlags s) :
    (getSpatialAccRel (f+1) s i r c).1
      = AdR (getTransform (f+1) s i c).1
          (Vec6.sub
            (Vec6.sub (getSpatialAcc (f+1) s i).1
              (AdT (getTransform (f+1) s r i).1 (getSpatialAcc (f+1) s r).1))
            (ad (getSpatialVel (f+1) s i).1 (getSpatialVelRel (f+1) s i r i).1))
    ∧ (getLinearAccRel (f+1) s i r c).1
        = (getSpatialAccRel (f+1) s i r c).1.lin
          + cross (getSpatialVelRel (f+1) s i r c).1.ang
              (getSpatialVelRel (f+1) s i r c).1.lin
    ∧ (getAngularAccRel (f+1) s i r c).1 = (getSpatialAccRel (f+1) s i r c).1.ang := by
  refine ⟨?_, ?_, rfl⟩
  · simp [getSpatialAccRel, getT_clean f s i c hc, getT_clean f s r i hc,
      getSA_clean f s i (hc i).2.2, getSA_clean f s r (hc r).2.2,
      getSV_clean f s i (hc i).2.1]
  · simp [getLinearAccRel, getSVRel_clean_state f s i r c hc]

/- ### Algebraic lemmas for the self-velocity cancellation -/

theorem cross_zero_left (v : Vec3) : cross (0 : Vec3) v = 0 := by
  funext k
  fin_cases k <;> simp [cross]

theorem transposeM_id : transposeM matId = matId := by
  funext i j
  by_cases h : i = j
  · simp [transposeM, matId, h]
  · have h2 : ¬(j = i) := fun hj => h hj.symm
    simp [transposeM, matId, h, h2]

theorem matId_orthogonal : matMul (transposeM matId) matId = matId := by
  rw [transposeM_id, matMul_id_left]

theorem inv_comp_self (T : Iso3)
    (h : matMul (transposeM T.R) T.R = matId) :
    Iso3.comp (Iso3.inv T) T = Iso3.id := by
  unfold Iso3.comp Iso3.inv Iso3.id
  rw [h]
  have ht : mulVec (transposeM T.R) T.t + -(mulVec (transposeM T.R) T.t)
      = (fun _ => 0 : Vec3) := by
    funext k
    simp
  rw [ht]

theorem AdT_id (V : Vec6) : AdT Iso3.id V = V := by
  cases V with
  | mk w v =>
    simp [AdT, Iso3.id, mulVec_id, cross_zero_left,
      show (fun _ : Fin 3 => (0:ℚ)) = 0 from rfl]

theorem Vec6.sub_self (V : Vec6) : Vec6.sub V V = Vec6.zero := by
  cases V
  simp [Vec6.sub, Vec6.zero, sub_self, show (fun _ : Fin 3 => (0:ℚ)) = 0 from rfl]

theorem AdR_zero (T : Iso3) : AdR T Vec6.zero = Vec6.zero := by
  simp [AdR, Vec6.zero, mulVec_zero_right]

/-- C10: on a clean, correctly formed tree (no self-parented non-world
frame, orthogonal rotation blocks, identity World cache),
`getSpatialVelocity(F, C)` evaluated on frame `F` itself — the velocity of
a frame relative to itself, in any coordinate frame — is the zero spatial
vector: `F.getTransform(F)` is the identity, so the transported
self-velocity cancels exactly and the rotational adjoint maps zero to zero. -/
theorem claim_C10_self_velocity_zero (f : Nat) (s : FrameState) (i c : Nat)
    (hc : CleanFlags s)
    (hworld : s.isWorld i = true → s.cachedT i = Iso3.id)
    (hnw : s.isWorld i = false →
      s.parent i ≠ some i ∧ matMul (transposeM (s.cachedT i).R) (s.cachedT i).R = matId) :
    (getSpatialVelRel (f+1) s i i c).1 = Vec6.zero := by
  have htf : tfOf s i i = Iso3.id := by
    unfold tfOf
    by_cases hw : s.isWorld i = true
    · rw [if_pos hw]
      exact hworld hw
    · have hw' : s.isWorld i = false := by simpa using hw
      rw [if_neg hw, if_neg (hnw hw').1]
      exact inv_comp_self _ (hnw hw').2
  have hmain : (getSpatialVelRel (f+1) s i i c).1
      = AdR (tfOf s i c) (Vec6.sub (s.cachedV i) (AdT (tfOf s i i) (s.cachedV i))) := by
    simp [getSpatialVelRel, getT_clean f s i c hc, getT_clean f s i i hc,
      getSV_clean f s i (hc i).2.1]
  rw [hmain, htf, AdT_id, Vec6.sub_self, AdR_zero]

/-- A clean-flag variant of the concrete chain state, for witnesses. -/
def cleanState : FrameState :=
  { chainState with
    needT := fun _ => false, needV := fun _ => false, needA := fun _ => false }

theorem claim_C6_witness :
    CleanFlags cleanState
    ∧ (getSpatialVelRel 1 cleanState 0 1 2).1
        = AdR (getTransform 1 cleanState 0 2).1
            (Vec6.sub (getSpatialVel 1 cleanState 0).1
              (AdT (getTransform 1 cleanState 1 0).1 (getSpatialVel 1 cleanState 1).1)) :=
  ⟨fun _ => ⟨rfl, rfl, rfl⟩,
   (claim_C6_relative_spatial_velocity 0 cleanState 0 1 2 (fun _ => ⟨rfl, rfl, rfl⟩)).1⟩

theorem claim_C5_witness :
    CleanFlags cleanState
    ∧ (getLinearAccRel 1 cleanState 0 1 2).1
        = (getSpatialAccRel 1 cleanState 0 1 2).1.lin
          + cross (getSpatialVelRel 1 cleanState 0 1 2).1.ang
              (getSpatialVelRel 1 cleanState 0 1 2).1.lin :=
  ⟨fun _ => ⟨rfl, rfl, rfl⟩,
   (claim_C5_relative_spatial_acceleration 0 cleanState 0 1 2 (fun _ => ⟨rfl, rfl, rfl⟩)).2.1⟩

theorem claim_C10_witness :
    CleanFlags cleanState
    ∧ cleanState.parent 0 ≠ some 0
    ∧ matMul (transposeM (cleanState.cachedT 0).R) (cleanState.cachedT 0).R = matId
    ∧ (getSpatialVelRel 1 cleanState 0 0 2).1 = Vec6.zero :=
  ⟨fun _ => ⟨rfl, rfl, rfl⟩, by decide, matId_orthogonal,
   claim_C10_self_velocity_zero 0 cleanState 0 2 (fun _ => ⟨rfl, rfl, rfl⟩)
     (fun _ => rfl) (fun _ => ⟨by decide, matId_orthogonal⟩)⟩


/- ### What the cached getters can do to the state -/

theorem getSV_world (f : Nat) (s : FrameState) (i : Nat) (h : s.isWorld i = true) :
    getSpatialVel (f+1) s i = (s.cachedV i, s) := by
  simp [getSpatialVel, h]

theorem getSV_orphan (f : Nat) (s : FrameState) (i : Nat)
    (hw : s.isWorld i = false) (hv : s.needV i = true) (hp : s.parent i = none) :
    getSpatialVel (f+1) s i = (s.cachedV i, s) := by
  simp [getSpatialVel, hw, hv, hp]

theorem getSV_dirty_eq (f : Nat) (s : FrameState) (i p : Nat)
    (hw : s.isWorld i = false) (hv : s.needV i = true) (hp : s.parent i = some p) :
    getSpatialVel (f+1) s i
      = (Vec6.add (AdInvT (s.relT i) (getSpatialVel f s p).1) (s.relV i),
         { (getSpatialVel f s p).2 with
           cachedV := Function.update (getSpatialVel f s p).2.cachedV i
             (Vec6.add (AdInvT (s.relT i) (getSpatialVel f s p).1) (s.relV i)),
           needV := Function.update (getSpatialVel f s p).2.needV i false }) := by
  simp [getSpatialVel, hw, hv, hp]

theorem getSA_world (f : Nat) (s : FrameState) (i : Nat) (h : s.isWorld i = true) :
    getSpatialAcc (f+1) s i = (s.cachedA i, s) := by
  simp [getSpatialAcc, h]

theorem getSA_orphan (f : Nat) (s : FrameState) (i : Nat)
    (hw : s.isWorld i = false) (ha : s.needA i = true) (hp : s.parent i = none) :
    getSpatialAcc (f+1) s i = (s.cachedA i, s) := by
  simp [getSpatialAcc, hw, ha, hp]

theorem getSA_dirty_eq (f : Nat) (s : FrameState) (i p : Nat)
    (hw : s.isWorld i = false) (ha : s.needA i = true) (hp : s.parent i = some p) :
    getSpatialAcc (f+1) s i
      = (Vec6.add (Vec6.add (AdInvT (s.relT i) (getSpatialAcc f s p).1) (s.primAcc i)) (s.partAcc i),
         { (getSpatialAcc f s p).2 with
           cachedA := Function.update (getSpatialAcc f s p).2.cachedA i
             (Vec6.add (Vec6.add (AdInvT (s.relT i) (getSpatialAcc f s p).1) (s.primAcc i)) (s.partAcc i)),
           needA := Function.update (getSpatialAcc f s p).2.needA i false }) := by
  simp [getSpatialAcc, hw, ha, hp]

/-- What a cached-getter recomputation can do: it only writes caches of
non-world frames and clears (never sets) dirty flags. -/
structure GetStep (s s' : FrameState) : Prop where
  parent : s'.parent = s.parent
  isWorld : s'.isWorld = s.isWorld
  quiet : s'.quiet = s.quiet
  childEntities : s'.childEntities = s.childEntities
  childFrames : s'.childFrames = s.childFrames
  relT : s'.relT = s.relT
  relV : s'.relV = s.relV
  primAcc : s'.primAcc = s.primAcc
  partAcc : s'.partAcc = s.partAcc
  vizShapes : s'.vizShapes = s.vizShapes
  cachedT_world : ∀ j, s.isWorld j = true → s'.cachedT j = s.cachedT j
  cachedV_world : ∀ j, s.isWorld j = true → s'.cachedV j = s.cachedV j
  cachedA_world : ∀ j, s.isWorld j = true → s'.cachedA j = s.cachedA j
  needT_down : ∀ j, s.needT j = false → s'.needT j = false
  needV_down : ∀ j, s.needV j = false → s'.needV j = false
  needA_down : ∀ j, s.needA j = false → s'.needA j = false

theorem getStep_refl (s : FrameState) : GetStep s s :=
  ⟨rfl, rfl, rfl, rfl, rfl, rfl, rfl, rfl, rfl, rfl,
   fun _ _ => rfl, fun _ _ => rfl, fun _ _ => rfl,
   fun _ h => h, fun _ h => h, fun _ h => h⟩

theorem getStep_trans {s1 s2 s3 : FrameState}
    (a : GetStep s1 s2) (b : GetStep s2 s3) : GetStep s1 s3 :=
  ⟨b.parent.trans a.parent, b.isWorld.trans a.isWorld, b.quiet.trans a.quiet,
   b.childEntities.trans a.childEntities, b.childFrames.trans a.childFrames,
   b.relT.trans a.relT, b.relV.trans a.relV, b.primAcc.trans a.primAcc,
   b.partAcc.trans a.partAcc, b.vizShapes.trans a.vizShapes,
   fun j hj => (b.cachedT_world j (by rw [a.isWorld]; exact hj)).trans (a.cachedT_world j hj),
   fun j hj => (b.cachedV_world j (by rw [a.isWorld]; exact hj)).trans (a.cachedV_world j hj),
   fun j hj => (b.cachedA_world j (by rw [a.isWorld]; exact hj)).trans (a.cachedA_world j hj),
   fun j hj => b.needT_down j (a.needT_down j hj),
   fun j hj => b.needV_down j (a.needV_down j hj),
   fun j hj => b.needA_down j (a.needA_down j hj)⟩

theorem getWT_getStep :
    ∀ (f : Nat) (s : FrameState) (i : Nat),
      GetStep s ((getWorldTransform f s i).2.1) := by
  intro f
  induction f with
  | zero => intro s i; exact getStep_refl s
  | succ f ih =>
    intro s i
    by_cases hw : s.isWorld i = true
    · rw [getWT_world f s i hw]; exact getStep_refl s
    · have hw' : s.isWorld i = false := by simpa using hw
      by_cases ht : s.needT i = true
      · cases hp : s.parent i with
        | none => rw [getWT_orphan f s i hw' ht hp]; exact getStep_refl s
        | some p =>
          rw [getWT_dirty_eq f s i p hw' ht hp]
          have hI := ih s p
          refine getStep_trans hI
            ⟨rfl, rfl, rfl, rfl, rfl, rfl, rfl, rfl, rfl, rfl, ?_, fun _ _ => rfl,
             fun _ _ => rfl, ?_, fun _ h => h, fun _ h => h⟩
          · intro j hj
            show Function.update (getWorldTransform f s p).2.1.cachedT i
              (Iso3.comp (getWorldTransform f s p).1 (s.relT i)) j
              = (getWorldTransform f s p).2.1.cachedT j
            have hji : ¬(j = i) := by
              intro hji
              subst hji
              have hj2 : s.isWorld j = true := by rw [← hI.isWorld]; exact hj
              exact Bool.noConfusion (hj2.symm.trans hw')
            rw [Function.update_apply, if_neg hji]
          · intro j hjn
            show Function.update (getWorldTransform f s p).2.1.needT i false j = false
            rw [Function.update_apply]
            by_cases hji : j = i
            · rw [if_pos hji]
            · rw [if_neg hji]
              exact hjn
      · have ht' : s.needT i = false := by simpa using ht
        rw [getWT_clean f s i ht']
        exact getStep_refl s

theorem getSV_getStep :
    ∀ (f : Nat) (s : FrameState) (i : Nat),
      GetStep s ((getSpatialVel f s i).2) := by
  intro f
  induction f with
  | zero => intro s i; exact getStep_refl s
  | succ f ih =>
    intro s i
    by_cases hw : s.isWorld i = true
    · rw [getSV_world f s i hw]; exact getStep_refl s
    · have hw' : s.isWorld i = false := by simpa using hw
      by_cases hv : s.needV i = true
      · cases hp : s.parent i with
        | none => rw [getSV_orphan f s i hw' hv hp]; exact getStep_refl s
        | some p =>
          rw [getSV_dirty_eq f s i p hw' hv hp]
          have hI := ih s p
          refine getStep_trans hI
            ⟨rfl, rfl, rfl, rfl, rfl, rfl, rfl, rfl, rfl, rfl, fun _ _ => rfl, ?_,
             fun _ _ => rfl, fun _ h => h, ?_, fun _ h => h⟩
          · intro j hj
            show Function.update (getSpatialVel f s p).2.cachedV i
              (Vec6.add (AdInvT (s.relT i) (getSpatialVel f s p).1) (s.relV i)) j
              = (getSpatialVel f s p).2.cachedV j
            have hji : ¬(j = i) := by
              intro hji
              subst hji
              have hj2 : s.isWorld j = true := by rw [← hI.isWorld]; exact hj
              exact Bool.noConfusion (hj2.symm.trans hw')
            rw [Function.update_apply, if_neg hji]
          · intro j hjn
            show Function.update (getSpatialVel f s p).2.needV i false j = false
            rw [Function.update_apply]
            by_cases hji : j = i
            · rw [if_pos hji]
            · rw [if_neg hji]
              exact hjn
      · have hv' : s.needV i = false := by simpa using hv
        rw [getSV_clean f s i hv']
        exact getStep_refl s

theorem getSA_getStep :
    ∀ (f : Nat) (s : FrameState) (i : Nat),
      GetStep s ((getSpatialAcc f s i).2) := by
  intro f
  induction f with
  | zero => intro s i; exact getStep_refl s
  | succ f ih =>
    intro s i
    by_cases hw : s.isWorld i = true
    · rw [getSA_world f s i hw]; exact getStep_refl s
    · have hw' : s.isWorld i = false := by simpa using hw
      by_cases ha : s.needA i = true
      · cases hp : s.parent i with
        | none => rw [getSA_orphan f s i hw' ha hp]; exact getStep_refl s
        | some p =>
          rw [getSA_dirty_eq f s i p hw' ha hp]
          have hI := ih s p
          refine getStep_trans hI
            ⟨rfl, rfl, rfl, rfl, rfl, rfl, rfl, rfl, rfl, rfl, fun _ _ => rfl,
             fun _ _ => rfl, ?_, fun _ h => h, fun _ h => h, ?_⟩
          · intro j hj
            show Function.update (getSpatialAcc f s p).2.cachedA i
              (Vec6.add (Vec6.add (AdInvT (s.relT i) (getSpatialAcc f s p).1) (s.primAcc i)) (s.partAcc i)) j
              = (getSpatialAcc f s p).2.cachedA j
            have hji : ¬(j = i) := by
              intro hji
              subst hji
              have hj2 : s.isWorld j = true := by rw [← hI.isWorld]; exact hj
              exact Bool.noConfusion (hj2.symm.trans hw')
            rw [Function.update_apply, if_neg hji]
          · intro j hjn
            show Function.update (getSpatialAcc f s p).2.needA i false j = false
            rw [Function.update_apply]
            by_cases hji : j = i
            · rw [if_pos hji]
            · rw [if_neg hji]
              exact hjn
      · have ha' : s.needA i = false := by simpa using ha
        rw [getSA_clean f s i ha']
        exact getStep_refl s


/- ### Reachable states: operation sequences over the public mutators -/

/-- One public mutating call on the frame graph.  `destroy` reparents the
victim's children onto the designated World frame, as the destructor does. -/
inductive Op where
  | notifyT (i : Nat)
  | notifyV (i : Nat)
  | notifyA (i : Nat)
  | reparent (i : Nat) (p : Option Nat)
  | queryWT (i : Nat)
  | querySV (i : Nat)
  | querySA (i : Nat)
  | destroy (i : Nat)
deriving DecidableEq

def applyOp (fuel w : Nat) (s : FrameState) : Op → FrameState
  | Op.notifyT i => notifyTransformUpdate fuel s i
  | Op.notifyV i => notifyVelocityUpdate fuel s i
  | Op.notifyA i => notifyAccelerationUpdate fuel s i
  | Op.reparent i p => changeParentFrame fuel s i p
  | Op.queryWT i => (getWorldTransform fuel s i).2.1
  | Op.querySV i => (getSpatialVel fuel s i).2
  | Op.querySA i => (getSpatialAcc fuel s i).2
  | Op.destroy i => destroyFrame fuel s i w

def runOps (fuel w : Nat) (s : FrameState) (ops : List Op) : FrameState :=
  ops.foldl (applyOp fuel w) s

/-- An operation that does not invoke a notify hook directly on the World
frame itself (cascades may target any other frame). -/
def worldSafe (w : Nat) : Op → Prop
  | Op.notifyT i => i ≠ w
  | Op.notifyV i => i ≠ w
  | Op.notifyA i => i ≠ w
  | _ => True

/-- The World frame's bookkeeping invariant: world-flagged, suppressed,
registered in no child set, and all three dirty flags clear. -/
structure WorldClean (w : Nat) (s : FrameState) : Prop where
  isWorld : s.isWorld w = true
  quiet : s.quiet w = true
  ce : ∀ j, w ∉ s.childEntities j
  cf : ∀ j, w ∉ s.childFrames j
  needT : s.needT w = false
  needV : s.needV w = false
  needA : s.needA w = false

/-- The World frame's cached-quantity invariant: world-flagged, identity
transform cache, zero velocity and acceleration caches. -/
structure WorldQ (w : Nat) (s : FrameState) : Prop where
  isWorld : s.isWorld w = true
  cachedT : s.cachedT w = Iso3.id
  cachedV : s.cachedV w = Vec6.zero
  cachedA : s.cachedA w = Vec6.zero

theorem cpf_ce_quiet (f : Nat) (s : FrameState) (i : Nat) (np : Option Nat)
    (hq : s.quiet i = true) :
    (changeParentFrame f s i np).childEntities = s.childEntities := by
  cases np with
  | none =>
    rw [cpf_none_eq, entityCPF_ce_quiet (cpfAux s i) i none hq]
    exact cpfAux_childEntities s i
  | some np =>
    by_cases hr : (dependsOn f s np i && !(s.isWorld i && s.isWorld np)) = true
    · rw [cpf_reject f s i np hr]
    · have hr' : (dependsOn f s np i && !(s.isWorld i && s.isWorld np)) = false := by
        simpa using hr
      rw [cpf_some_eq f s i np hr']
      have hq2 : (entityChangeParentFrame (cpfAux s i) i (some np)).quiet i = true := hq
      rw [if_pos hq2, entityCPF_ce_quiet (cpfAux s i) i (some np) hq]
      exact cpfAux_childEntities s i

theorem cpf_cf_quiet_notMem (f : Nat) (s : FrameState) (i : Nat) (np : Option Nat)
    (x j : Nat) (hq : s.quiet i = true) (h2 : x ∉ s.childFrames j) :
    x ∉ (changeParentFrame f s i np).childFrames j := by
  cases np with
  | none =>
    rw [cpf_none_eq, entityCPF_childFrames]
    exact cpfAux_not_mem_cf s i x j h2
  | some np =>
    by_cases hr : (dependsOn f s np i && !(s.isWorld i && s.isWorld np)) = true
    · rw [cpf_reject f s i np hr]
      exact h2
    · have hr' : (dependsOn f s np i && !(s.isWorld i && s.isWorld np)) = false := by
        simpa using hr
      rw [cpf_some_eq f s i np hr']
      have hq2 : (entityChangeParentFrame (cpfAux s i) i (some np)).quiet i = true := hq
      rw [if_pos hq2, entityCPF_childFrames]
      exact cpfAux_not_mem_cf s i x j h2

theorem cpf_worldClean (f w : Nat) (s : FrameState) (i : Nat) (np : Option Nat)
    (h : WorldClean w s) : WorldClean w (changeParentFrame f s i np) := by
  have hr := cpf_relStep f s i np
  have hce : ∀ j, w ∉ (changeParentFrame f s i np).childEntities j := by
    by_cases hiw : i = w
    · subst hiw
      intro j
      rw [cpf_ce_quiet f s i np h.quiet]
      exact h.ce j
    · intro j
      exact (cpf_not_mem f s i np w j (fun he => hiw he.symm) (h.ce j) (h.cf j)).1
  have hcf : ∀ j, w ∉ (changeParentFrame f s i np).childFrames j := by
    by_cases hiw : i = w
    · subst hiw
      intro j
      exact cpf_cf_quiet_notMem f s i np i j h.quiet (h.cf j)
    · intro j
      exact (cpf_not_mem f s i np w j (fun he => hiw he.symm) (h.ce j) (h.cf j)).2
  exact ⟨by rw [hr.isWorld]; exact h.isWorld, by rw [hr.quiet]; exact h.quiet,
    hce, hcf, by rw [hr.needT]; exact h.needT, by rw [hr.needV]; exact h.needV,
    by rw [hr.needA]; exact h.needA⟩

theorem notifyAcc_worldClean (w : Nat) :
    ∀ (f : Nat) (s : FrameState) (i : Nat),
      WorldClean w s → i ≠ w → WorldClean w (notifyAccelerationUpdate f s i) := by
  intro f
  induction f with
  | zero => intro s i h _; exact h
  | succ f ih =>
    intro s i h hiw
    by_cases hd : s.needA i = true
    · rw [notifyAcc_dirty (f+1) s i hd]
      exact h
    · have hd' : s.needA i = false := by simpa using hd
      rw [notifyAcc_clean f s i hd']
      have h1 : WorldClean w { s with needA := Function.update s.needA i true } := by
        refine ⟨h.isWorld, h.quiet, h.ce, h.cf, h.needT, h.needV, ?_⟩
        show Function.update s.needA i true w = false
        rw [Function.update_apply, if_neg (fun hwi : w = i => hiw hwi.symm)]
        exact h.needA
      refine foldl_preserve (WorldClean w) _ ?_ _ h1
      intro t e he ht
      have hew : e ≠ w := fun hew => h1.ce i (hew ▸ he)
      exact ih t e ht hew

theorem notifyVel_worldClean (w : Nat) :
    ∀ (f : Nat) (s : FrameState) (i : Nat),
      WorldClean w s → i ≠ w → WorldClean w (notifyVelocityUpdate f s i) := by
  intro f
  induction f with
  | zero => intro s i h _; exact h
  | succ f ih =>
    intro s i h hiw
    have h0 : WorldClean w (notifyAccelerationUpdate (f+1) s i) :=
      notifyAcc_worldClean w (f+1) s i h hiw
    by_cases hd : s.needV i = true
    · rw [notifyVel_dirty f s i hd]
      exact h0
    · have hd' : s.needV i = false := by simpa using hd
      rw [notifyVel_clean f s i hd']
      have h1 : WorldClean w
          { notifyAccelerationUpdate (f+1) s i with
            needV := Function.update (notifyAccelerationUpdate (f+1) s i).needV i true } := by
        refine ⟨h0.isWorld, h0.quiet, h0.ce, h0.cf, h0.needT, ?_, h0.needA⟩
        show Function.update (notifyAccelerationUpdate (f+1) s i).needV i true w = false
        rw [Function.update_apply, if_neg (fun hwi : w = i => hiw hwi.symm)]
        exact h0.needV
      refine foldl_preserve (WorldClean w) _ ?_ _ h1
      intro t e he ht
      have hew : e ≠ w := fun hew => h1.ce i (hew ▸ he)
      exact ih t e ht hew

theorem notifyTrans_worldClean (w : Nat) :
    ∀ (f : Nat) (s : FrameState) (i : Nat),
      WorldClean w s → i ≠ w → WorldClean w (notifyTransformUpdate f s i) := by
  intro f
  induction f with
  | zero => intro s i h _; exact h
  | succ f ih =>
    intro s i h hiw
    have h0 : WorldClean w (notifyVelocityUpdate (f+1) s i) :=
      notifyVel_worldClean w (f+1) s i h hiw
    by_cases hd : s.needT i = true
    · rw [notifyTrans_dirty f s i hd]
      exact h0
    · have hd' : s.needT i = false := by simpa using hd
      rw [notifyTrans_clean f s i hd']
      have h1 : WorldClean w
          { notifyVelocityUpdate (f+1) s i with
            needT := Function.update (notifyVelocityUpdate (f+1) s i).needT i true } := by
        refine ⟨h0.isWorld, h0.quiet, h0.ce, h0.cf, ?_, h0.needV, h0.needA⟩
        show Function.update (notifyVelocityUpdate (f+1) s i).needT i true w = false
        rw [Function.update_apply, if_neg (fun hwi : w = i => hiw hwi.symm)]
        exact h0.needT
      refine foldl_preserve (WorldClean w) _ ?_ _ h1
      intro t e he ht
      have hew : e ≠ w := fun hew => h1.ce i (hew ▸ he)
      exact ih t e ht hew

theorem getStep_worldClean {w : Nat} {s s' : FrameState}
    (h : WorldClean w s) (g : GetStep s s') : WorldClean w s' :=
  ⟨by rw [g.isWorld]; exact h.isWorld, by rw [g.quiet]; exact h.quiet,
   fun j => by rw [g.childEntities]; exact h.ce j,
   fun j => by rw [g.childFrames]; exact h.cf j,
   g.needT_down w h.needT, g.needV_down w h.needV, g.needA_down w h.needA⟩

theorem destroy_worldClean (f w : Nat) (s : FrameState) (i : Nat)
    (h : WorldClean w s) : WorldClean w (destroyFrame f s i w) := by
  by_cases hW : s.isWorld i = true
  · rw [destroy_world f s i w hW]
    exact h
  · have hW' : s.isWorld i = false := by simpa using hW
    rw [destroy_eq f s i w hW']
    have h1 : WorldClean w (changeParentFrame f s i none) :=
      cpf_worldClean f w s i none h
    have h2 : WorldClean w
        (((changeParentFrame f s i none).childEntities i).foldl
          (fun t e => changeParentFrame f t e (some w)) (changeParentFrame f s i none)) :=
      foldl_preserve (WorldClean w) _
        (fun t e _ ht => cpf_worldClean f w t e (some w) ht) _ h1
    exact ⟨h2.isWorld, h2.quiet, h2.ce, h2.cf, h2.needT, h2.needV, h2.needA⟩

theorem destroy_isWorld (f : Nat) (s : FrameState) (i w : Nat) :
    (destroyFrame f s i w).isWorld = s.isWorld := by
  by_cases hW : s.isWorld i = true
  · rw [destroy_world f s i w hW]
  · rw [destroy_eq f s i w (by simpa using hW)]
    show (((changeParentFrame f s i none).childEntities i).foldl
        (fun t e => changeParentFrame f t e (some w))
        (changeParentFrame f s i none)).isWorld = s.isWorld
    refine foldl_preserve (fun u => u.isWorld = s.isWorld) _
      (fun t e _ ht => by
        show (changeParentFrame f t e (some w)).isWorld = s.isWorld
        rw [(cpf_relStep f t e (some w)).isWorld]
        exact ht) _ ?_
    show (changeParentFrame f s i none).isWorld = s.isWorld
    rw [(cpf_relStep f s i none).isWorld]

theorem relStep_worldQ {w : Nat} {s s' : FrameState}
    (h : WorldQ w s) (r : RelStep s s') : WorldQ w s' :=
  ⟨by rw [r.isWorld]; exact h.isWorld, by rw [r.cachedT]; exact h.cachedT,
   by rw [r.cachedV]; exact h.cachedV, by rw [r.cachedA]; exact h.cachedA⟩

theorem transStep_worldQ {w : Nat} {s s' : FrameState}
    (h : WorldQ w s) (t : TransStep s s') : WorldQ w s' :=
  ⟨by rw [t.isWorld]; exact h.isWorld, by rw [t.cachedT]; exact h.cachedT,
   by rw [t.cachedV]; exact h.cachedV, by rw [t.cachedA]; exact h.cachedA⟩

theorem getStep_worldQ {w : Nat} {s s' : FrameState}
    (h : WorldQ w s) (g : GetStep s s') : WorldQ w s' :=
  ⟨by rw [g.isWorld]; exact h.isWorld,
   (g.cachedT_world w h.isWorld).trans h.cachedT,
   (g.cachedV_world w h.isWorld).trans h.cachedV,
   (g.cachedA_world w h.isWorld).trans h.cachedA⟩

theorem destroy_worldQ (f w : Nat) (s : FrameState) (i : Nat)
    (h : WorldQ w s) : WorldQ w (destroyFrame f s i w) := by
  by_cases hW : s.isWorld i = true
  · rw [destroy_world f s i w hW]
    exact h
  · rw [destroy_eq f s i w (by simpa using hW)]
    have h2 : WorldQ w
        (((changeParentFrame f s i none).childEntities i).foldl
          (fun t e => changeParentFrame f t e (some w)) (changeParentFrame f s i none)) :=
      foldl_preserve (WorldQ w) _
        (fun t e _ ht => relStep_worldQ ht (cpf_relStep f t e (some w))) _
        (relStep_worldQ h (cpf_relStep f s i none))
    exact ⟨h2.isWorld, h2.cachedT, h2.cachedV, h2.cachedA⟩

theorem applyOp_isWorld (f w : Nat) (s : FrameState) (op : Op) :
    (applyOp f w s op).isWorld = s.isWorld := by
  cases op with
  | notifyT i => exact (notifyTrans_step f s i).isWorld
  | notifyV i => exact (notifyVel_step f s i).isWorld
  | notifyA i => exact (notifyAcc_step f s i).isWorld
  | reparent i p => exact (cpf_relStep f s i p).isWorld
  | queryWT i => exact (getWT_getStep f s i).isWorld
  | querySV i => exact (getSV_getStep f s i).isWorld
  | querySA i => exact (getSA_getStep f s i).isWorld
  | destroy i => exact destroy_isWorld f s i w

theorem applyOp_worldQ (f w : Nat) (s : FrameState) (op : Op)
    (h : WorldQ w s) : WorldQ w (applyOp f w s op) := by
  cases op with
  | notifyT i => exact transStep_worldQ h (notifyTrans_step f s i)
  | notifyV i => exact transStep_worldQ h (transStep_of_vel (notifyVel_step f s i))
  | notifyA i =>
    exact transStep_worldQ h (transStep_of_vel (velStep_of_acc (notifyAcc_step f s i)))
  | reparent i p => exact relStep_worldQ h (cpf_relStep f s i p)
  | queryWT i => exact getStep_worldQ h (getWT_getStep f s i)
  | querySV i => exact getStep_worldQ h (getSV_getStep f s i)
  | querySA i => exact getStep_worldQ h (getSA_getStep f s i)
  | destroy i => exact destroy_worldQ f w s i h

theorem applyOp_worldClean (f w : Nat) (s : FrameState) (op : Op)
    (h : WorldClean w s) (hs : worldSafe w op) : WorldClean w (applyOp f w s op) := by
  cases op with
  | notifyT i => exact notifyTrans_worldClean w f s i h hs
  | notifyV i => exact notifyVel_worldClean w f s i h hs
  | notifyA i => exact notifyAcc_worldClean w f s i h hs
  | reparent i p => exact cpf_worldClean f w s i p h
  | queryWT i => exact getStep_worldClean h (getWT_getStep f s i)
  | querySV i => exact getStep_worldClean h (getSV_getStep f s i)
  | querySA i => exact getStep_worldClean h (getSA_getStep f s i)
  | destroy i => exact destroy_worldClean f w s i h

/-- C7 (amended): starting from a bootstrapped state in which the World
frame is suppressed, registered in no child set, and clean, any sequence of
notify cascades on non-world frames, reparentings, cached-getter queries
and destructions leaves the World frame's three dirty flags clear — no
cascade can reach it because it is never in a child set.  (The original
claim fails for a notify invoked directly on the World frame, see the
counterexample: the notify methods have no World guard.) -/
theorem claim_C7_world_flags_cascades (f w : Nat) (ops : List Op) (s0 : FrameState)
    (h0 : WorldClean w s0) (hsafe : ∀ op ∈ ops, worldSafe w op) :
    (runOps f w s0 ops).needT w = false
    ∧ (runOps f w s0 ops).needV w = false
    ∧ (runOps f w s0 ops).needA w = false := by
  have h := foldl_preserve (WorldClean w) ops
    (fun t op hop ht => applyOp_worldClean f w t op ht (hsafe op hop)) s0 h0
  exact ⟨h.needT, h.needV, h.needA⟩

/-- The bootstrapped World-only frame graph: frame 0 is the self-parented,
suppressed World frame with identity/zero caches and clean flags. -/
def worldOnlyState : FrameState where
  parent := fun i => if i = 0 then some 0 else none
  isWorld := fun i => i = 0
  quiet := fun i => i = 0
  childEntities := fun _ => []
  childFrames := fun _ => []
  needT := fun _ => false
  needV := fun _ => false
  needA := fun _ => false
  cachedT := fun _ => Iso3.id
  cachedV := fun _ => Vec6.zero
  cachedA := fun _ => Vec6.zero
  relT := fun _ => Iso3.id
  relV := fun _ => Vec6.zero
  primAcc := fun _ => Vec6.zero
  partAcc := fun _ => Vec6.zero
  vizShapes := fun _ => []

/-- Counterexample to C7 as stated: in the bootstrapped state the World
frame's flags are clear, yet a single notify call invoked directly on the
World frame sets its dirty flag — the notify methods have no World guard. -/
theorem claim_C7_counterexample :
    worldOnlyState.isWorld 0 = true
    ∧ worldOnlyState.needT 0 = false
    ∧ worldOnlyState.needA 0 = false
    ∧ (notifyAccelerationUpdate 1 worldOnlyState 0).needA 0 = true
    ∧ (notifyTransformUpdate 1 worldOnlyState 0).needT 0 = true :=
  ⟨rfl, rfl, rfl, by decide, by decide⟩

theorem cleanState_worldClean : WorldClean 3 cleanState := by
  refine ⟨rfl, rfl, ?_, ?_, rfl, rfl, rfl⟩
  · intro j
    show 3 ∉ chainState.childEntities j
    by_cases h1 : j = 1
    · subst h1; simp [chainState]
    · by_cases h2 : j = 2
      · subst h2; simp [chainState]
      · by_cases h3 : j = 3
        · subst h3; simp [chainState]
        · simp [chainState, h1, h2, h3]
  · intro j
    show 3 ∉ chainState.childFrames j
    by_cases h1 : j = 1
    · subst h1; simp [chainState]
    · by_cases h2 : j = 2
      · subst h2; simp [chainState]
      · by_cases h3 : j = 3
        · subst h3; simp [chainState]
        · simp [chainState, h1, h2, h3]

theorem claim_C7_witness :
    WorldClean 3 cleanState
    ∧ (∀ op ∈ [Op.notifyT 0, Op.reparent 0 (some 3), Op.queryWT 1], worldSafe 3 op)
    ∧ ((runOps 2 3 cleanState [Op.notifyT 0, Op.reparent 0 (some 3), Op.queryWT 1]).needT 3 = false
       ∧ (runOps 2 3 cleanState [Op.notifyT 0, Op.reparent 0 (some 3), Op.queryWT 1]).needV 3 = false
       ∧ (runOps 2 3 cleanState [Op.notifyT 0, Op.reparent 0 (some 3), Op.queryWT 1]).needA 3 = false) := by
  have hWC : WorldClean 3 cleanState := cleanState_worldClean
  have hsafe : ∀ op ∈ [Op.notifyT 0, Op.reparent 0 (some 3), Op.queryWT 1], worldSafe 3 op := by
    intro op hop
    fin_cases hop
    · show (0 : Nat) ≠ 3
      decide
    · trivial
    · trivial
  exact ⟨hWC, hsafe,
    claim_C7_world_flags_cascades 2 3 [Op.notifyT 0, Op.reparent 0 (some 3), Op.queryWT 1]
      cleanState hWC hsafe⟩

/-- C8: the World designation is immutable under every operation — the
model's rendering of `World()` returning the same instance on every call —
and in every state reachable by any sequence of notify, reparent, query and
destroy operations from a state satisfying the World invariants, the World
frame's `getWorldTransform` returns the identity transform and its
`getSpatialVelocity` / `getSpatialAcceleration` return the zero 6-vector. -/
theorem claim_C8_world_identity (f w : Nat) (ops : List Op) (s0 : FrameState)
    (h : WorldQ w s0) :
    (runOps f w s0 ops).isWorld = s0.isWorld
    ∧ (getWorldTransform (f+1) (runOps f w s0 ops) w).1 = Iso3.id
    ∧ (getSpatialVel (f+1) (runOps f w s0 ops) w).1 = Vec6.zero
    ∧ (getSpatialAcc (f+1) (runOps f w s0 ops) w).1 = Vec6.zero := by
  have hQ : WorldQ w (runOps f w s0 ops) ∧ (runOps f w s0 ops).isWorld = s0.isWorld :=
    foldl_preserve (fun t => WorldQ w t ∧ t.isWorld = s0.isWorld) ops
      (fun t op _ ht => ⟨applyOp_worldQ f w t op ht.1, (applyOp_isWorld f w t op).trans ht.2⟩)
      s0 ⟨h, rfl⟩
  refine ⟨hQ.2, ?_, ?_, ?_⟩
  · rw [getWT_world f (runOps f w s0 ops) w hQ.1.isWorld]
    exact hQ.1.cachedT
  · rw [getSV_world f (runOps f w s0 ops) w hQ.1.isWorld]
    exact hQ.1.cachedV
  · rw [getSA_world f (runOps f w s0 ops) w hQ.1.isWorld]
    exact hQ.1.cachedA

theorem claim_C8_witness :
    WorldQ 0 worldOnlyState
    ∧ (getWorldTransform 3 (runOps 2 0 worldOnlyState
        [Op.notifyA 0, Op.reparent 1 (some 0), Op.queryWT 1]) 0).1 = Iso3.id
    ∧ (getSpatialVel 3 (runOps 2 0 worldOnlyState
        [Op.notifyA 0, Op.reparent 1 (some 0), Op.queryWT 1]) 0).1 = Vec6.zero :=
  ⟨⟨rfl, rfl, rfl, rfl⟩,
   (claim_C8_world_identity 2 0 [Op.notifyA 0, Op.reparent 1 (some 0), Op.queryWT 1]
     worldOnlyState ⟨rfl, rfl, rfl, rfl⟩).2.1,
   (claim_C8_world_identity 2 0 [Op.notifyA 0, Op.reparent 1 (some 0), Op.queryWT 1]
     worldOnlyState ⟨rfl, rfl, rfl, rfl⟩).2.2.1⟩

end DartFrame
